import Mathlib

/-!
Verification development for the `json2geo` GeoJSON extraction tool
(`src/json2geo/json2geo.py`).

The development has two layers:

* a typed layer for the ring-orientation geometry code
  (`calculate_area`, `fix_polygon_orientation`, `fix_geometry_orientation`),
  where a ring is a list of rational coordinate pairs — the claims about
  this code quantify over well-formed rings, so the typed layer is the
  natural domain;

* a dynamic layer (`JVal`) modelling Python's parsed-JSON values together
  with the partial dictionary/list primitives the parser uses
  (`is_valid_geojson`, `is_valid_feature`, `extract_features`,
  `parse_file`, `save_geojson`).  Exceptions are modelled with
  `Except PyErr`.

Machine floats are modelled as rationals; Python ints as `Int`.
-/

namespace Json2Geo

/-! ## Typed layer: ring orientation (`fix_polygon_orientation`) -/

/-- A coordinate pair `(x, y)`.  The source stores points as lists of
floats and only ever reads indices 0 and 1. -/
abbrev Point : Type := ℚ × ℚ

/-- A ring: an ordered list of coordinates (closed by convention, the
code does not rely on closure). -/
abbrev Ring : Type := List Point

/-- The running sum of `calculate_area`'s loop:
`for i in range(len(ring) - 1): area += ring[i][0]*ring[i+1][1] - ring[i+1][0]*ring[i][1]`. -/
def shoelace : Ring → ℚ
  | [] => 0
  | [_] => 0
  | p :: q :: rest => (p.1 * q.2 - q.1 * p.2) + shoelace (q :: rest)

/-- Model of `calculate_area` from `fix_polygon_orientation`: the loop sum divided by 2. -/
def calculate_area (ring : Ring) : ℚ := shoelace ring / 2

/-- Model of `reverse_ring` (the source mutates in place; we return the reversed list). -/
def reverse_ring (ring : Ring) : Ring := ring.reverse

/-- Model of `fix_polygon_orientation`: ring 0 is the exterior (reversed when its
signed area is negative), the remaining rings are holes (reversed when
positive).  `none` models the `IndexError` raised by `coordinates[0]`
on an empty list of rings. -/
def fix_polygon_orientation : List Ring → Option (List Ring × Bool)
  | [] => none
  | r0 :: rest =>
    let e := if calculate_area r0 < 0 then reverse_ring r0 else r0
    let hs := rest.map (fun r => if 0 < calculate_area r then reverse_ring r else r)
    let changed := (decide (calculate_area r0 < 0)) ||
      rest.any (fun r => decide (0 < calculate_area r))
    some (e :: hs, changed)

/-- Typed geometry value for the orientation fixer: a `Polygon` or
`MultiPolygon` carries its `coordinates` entry when present (`none`
models an absent `'coordinates'` key); every other geometry kind is
untouched by the fixer. -/
inductive Geometry where
  | polygon (coordinates : Option (List Ring))
  | multiPolygon (coordinates : Option (List (List Ring)))
  | other (gtype : String)
deriving Repr

/-- The `MultiPolygon` loop of `fix_geometry_orientation`:
`for polygon in geometry['coordinates']: if fix_polygon_orientation(polygon): changed = True`. -/
def fixMulti : List (List Ring) → Option (List (List Ring) × Bool)
  | [] => some ([], false)
  | p :: ps =>
    match fix_polygon_orientation p with
    | none => none
    | some (p', c) =>
      match fixMulti ps with
      | none => none
      | some (ps', cs) => some (p' :: ps', c || cs)

/-- Model of `fix_geometry_orientation` on the typed layer.  The input `none`
covers a falsy geometry or one without a `'type'` key (the function
returns `False` unchanged); the result `none` models an uncaught
exception (`IndexError`/`KeyError`). -/
def fix_geometry_orientation : Option Geometry → Option (Option Geometry × Bool)
  | none => some (none, false)
  | some (.other t) => some (some (.other t), false)
  | some (.polygon none) => none
  | some (.polygon (some rs)) =>
    match fix_polygon_orientation rs with
    | none => none
    | some (rs', c) => some (some (.polygon (some rs')), c)
  | some (.multiPolygon none) => none
  | some (.multiPolygon (some ps)) =>
    match fixMulti ps with
    | none => none
    | some (ps', c) => some (some (.multiPolygon (some ps')), c)

/-- The spec's shoelace formula, written with explicit indexing:
half the sum over `i` from `0` to `len(ring) - 2` of
`x[i]*y[i+1] - x[i+1]*y[i]`. -/
def specSignedArea (ring : Ring) : ℚ :=
  (∑ i in Finset.range (ring.length - 1),
    ((ring.getD i (0, 0)).1 * (ring.getD (i + 1) (0, 0)).2 -
      (ring.getD (i + 1) (0, 0)).1 * (ring.getD i (0, 0)).2)) / 2

/-- A well-formed ring per the spec: at least 3 coordinates and closed
(first coordinate equals the last). -/
def wfRing (r : Ring) : Prop := 3 ≤ r.length ∧ r.head? = r.getLast?

/-- Well-formedness of a typed geometry: `coordinates` present with a
non-empty list of well-formed rings (per polygon for `MultiPolygon`). -/
def wfGeom : Option Geometry → Prop
  | none => True
  | some (.other _) => True
  | some (.polygon none) => False
  | some (.polygon (some rs)) => rs ≠ [] ∧ ∀ r ∈ rs, wfRing r
  | some (.multiPolygon none) => False
  | some (.multiPolygon (some ps)) => ∀ p ∈ ps, p ≠ [] ∧ ∀ r ∈ p, wfRing r

theorem shoelace_append_last (l : Ring) (a : Point) :
    shoelace (l ++ [a]) =
      shoelace l + (match l.getLast? with
        | none => 0
        | some b => b.1 * a.2 - a.1 * b.2) := by
  induction l with
  | nil => simp [shoelace]
  | cons x t ih =>
    cases t with
    | nil => simp [shoelace]
    | cons y t' =>
      have h : (x :: y :: t') ++ [a] = x :: ((y :: t') ++ [a]) := rfl
      rw [h]
      show shoelace (x :: ((y :: t') ++ [a])) = _
      have hcons : ∀ z : Point, ∀ m : Ring, shoelace (x :: z :: m) =
          (x.1 * z.2 - z.1 * x.2) + shoelace (z :: m) := fun _ _ => rfl
      have h2 : (y :: t') ++ [a] = y :: (t' ++ [a]) := rfl
      rw [h2, hcons y (t' ++ [a]), ← h2, ih]
      have h3 : (x :: y :: t').getLast? = (y :: t').getLast? := by
        simp [List.getLast?]
      rw [h3]
      ring_nf
      cases h4 : (y :: t').getLast? <;> simp [shoelace] <;> ring

theorem shoelace_reverse (l : Ring) : shoelace l.reverse = - shoelace l := by
  induction l with
  | nil => simp [shoelace]
  | cons p t ih =>
    cases t with
    | nil => simp [shoelace]
    | cons q t' =>
      have h : (p :: q :: t').reverse = (q :: t').reverse ++ [p] := by
        simp
      rw [h, shoelace_append_last, ih]
      have hl : ((q :: t').reverse).getLast? = some q := by
        simp [List.getLast?_reverse]
      rw [hl]
      show -shoelace (q :: t') + (q.1 * p.2 - p.1 * q.2) =
        -((p.1 * q.2 - q.1 * p.2) + shoelace (q :: t'))
      ring

theorem calculate_area_reverse (r : Ring) :
    calculate_area r.reverse = - calculate_area r := by
  unfold calculate_area
  rw [shoelace_reverse]
  ring

theorem area_exterior_nonneg (r : Ring) :
    0 ≤ calculate_area (if calculate_area r < 0 then reverse_ring r else r) := by
  by_cases h : calculate_area r < 0
  · rw [if_pos h]
    unfold reverse_ring
    rw [calculate_area_reverse]
    linarith
  · rw [if_neg h]
    exact not_lt.1 h

theorem area_hole_nonpos (r : Ring) :
    calculate_area (if 0 < calculate_area r then reverse_ring r else r) ≤ 0 := by
  by_cases h : 0 < calculate_area r
  · rw [if_pos h]
    unfold reverse_ring
    rw [calculate_area_reverse]
    linarith
  · rw [if_neg h]
    exact not_lt.1 h

theorem list_map_self {α : Type} (f : α → α) :
    ∀ l : List α, (∀ x ∈ l, f x = x) → l.map f = l
  | [], _ => rfl
  | x :: t, h => by
    rw [List.map_cons, h x (by simp),
      list_map_self f t (fun y hy => h y (by simp [hy]))]

theorem fix_polygon_orientation_idem {rs out : List Ring} {c : Bool}
    (h : fix_polygon_orientation rs = some (out, c)) :
    fix_polygon_orientation out = some (out, false) := by
  cases rs with
  | nil => simp [fix_polygon_orientation] at h
  | cons r0 rest =>
    simp only [fix_polygon_orientation, Option.some.injEq, Prod.mk.injEq] at h
    obtain ⟨hout, -⟩ := h
    subst hout
    simp only [fix_polygon_orientation, Option.some.injEq, Prod.mk.injEq]
    have hE : ¬ calculate_area
        (if calculate_area r0 < 0 then reverse_ring r0 else r0) < 0 :=
      not_lt.2 (area_exterior_nonneg r0)
    have hmap : (rest.map
        (fun r => if 0 < calculate_area r then reverse_ring r else r)).map
        (fun r => if 0 < calculate_area r then reverse_ring r else r) =
        rest.map (fun r => if 0 < calculate_area r then reverse_ring r else r) := by
      apply list_map_self
      intro x hx
      obtain ⟨r, -, rfl⟩ := List.mem_map.1 hx
      exact if_neg (not_lt.2 (area_hole_nonpos r))
    have hany : (rest.map
        (fun r => if 0 < calculate_area r then reverse_ring r else r)).any
        (fun r => decide (0 < calculate_area r)) = false := by
      rw [List.any_eq_false]
      intro x hx
      obtain ⟨r, -, rfl⟩ := List.mem_map.1 hx
      simpa using not_lt.2 (area_hole_nonpos r)
    rw [if_neg hE, hmap, hany]
    simp [hE]

theorem fixMulti_total :
    ∀ ps : List (List Ring), (∀ p ∈ ps, p ≠ []) →
      ∃ ps' c, fixMulti ps = some (ps', c)
  | [], _ => ⟨[], false, rfl⟩
  | p :: ps, h => by
    cases hp : p with
    | nil => exact absurd hp (h p (by simp))
    | cons r0 rest =>
      obtain ⟨ps', c, hps⟩ := fixMulti_total ps (fun q hq => h q (by simp [hq]))
      subst hp
      simp only [fixMulti, fix_polygon_orientation, hps]
      exact ⟨_, _, rfl⟩

theorem fixMulti_idem :
    ∀ {ps ps' : List (List Ring)} {c : Bool},
      fixMulti ps = some (ps', c) → fixMulti ps' = some (ps', false) := by
  intro ps
  induction ps with
  | nil =>
    intro ps' c h
    simp only [fixMulti, Option.some.injEq, Prod.mk.injEq] at h
    obtain ⟨h1, -⟩ := h
    subst h1
    rfl
  | cons p pt ih =>
    intro ps' c h
    simp only [fixMulti] at h
    cases hp : fix_polygon_orientation p with
    | none => rw [hp] at h; exact absurd h (by simp)
    | some v =>
      obtain ⟨p', cp⟩ := v
      rw [hp] at h
      cases ht : fixMulti pt with
      | none => rw [ht] at h; exact absurd h (by simp)
      | some w =>
        obtain ⟨pt', ct⟩ := w
        rw [ht] at h
        simp only [Option.some.injEq, Prod.mk.injEq] at h
        obtain ⟨h1, -⟩ := h
        subst h1
        simp only [fixMulti, fix_polygon_orientation_idem hp, ih ht]
        rfl

theorem calculate_area_eq_spec (r : Ring) : calculate_area r = specSignedArea r := by
  unfold calculate_area specSignedArea
  congr 1
  induction r with
  | nil => simp [shoelace]
  | cons p t ih =>
    cases t with
    | nil => simp [shoelace]
    | cons q t' =>
      show (p.1 * q.2 - q.1 * p.2) + shoelace (q :: t') = _
      rw [ih]
      have hlen : (p :: q :: t').length - 1 = ((q :: t').length - 1) + 1 := by
        simp
      rw [hlen, Finset.sum_range_succ']
      have hshift : ∀ i : ℕ,
          ((p :: q :: t').getD (i + 1) (0, 0)) = ((q :: t').getD i (0, 0)) := by
        intro i; rfl
      simp only [hshift]
      have h0 : ((p :: q :: t').getD 0 (0, 0)) = p := rfl
      have h1 : ((q :: t').getD 0 (0, 0)) = q := rfl
      rw [h0]
      simp only [h1]
      ring

/-- C1: for every ring given as a closed sequence of at least 3
coordinates, `fix_polygon_orientation` computes the signed area by the
shoelace sum over indices 0..len-2 divided by 2; the exterior ring is
reversed exactly when its area is negative and ends with area ≥ 0, each
hole ring is reversed exactly when its area is positive and ends with
area ≤ 0, and zero-area rings are left unchanged. -/
theorem claim_C1 :
    (∀ r : Ring, calculate_area r = specSignedArea r) ∧
    ∀ (r0 : Ring) (rest : List Ring), wfRing r0 → (∀ r ∈ rest, wfRing r) →
      ∃ e hs changed,
        fix_polygon_orientation (r0 :: rest) = some (e :: hs, changed) ∧
        e = (if calculate_area r0 < 0 then reverse_ring r0 else r0) ∧
        hs = rest.map (fun r => if 0 < calculate_area r then reverse_ring r else r) ∧
        0 ≤ calculate_area e ∧
        (∀ h ∈ hs, calculate_area h ≤ 0) ∧
        changed = ((decide (calculate_area r0 < 0)) ||
          rest.any (fun r => decide (0 < calculate_area r))) ∧
        (calculate_area r0 = 0 → e = r0) ∧
        (∀ r ∈ rest, calculate_area r = 0 →
          (if 0 < calculate_area r then reverse_ring r else r) = r) := by
  constructor
  · exact calculate_area_eq_spec
  intro r0 rest _ _
  refine ⟨_, _, _, rfl, rfl, rfl, area_exterior_nonneg r0, ?_, rfl, ?_, ?_⟩
  · intro h hm
    obtain ⟨r, -, rfl⟩ := List.mem_map.1 hm
    exact area_hole_nonpos r
  · intro hz
    rw [if_neg (by rw [hz]; exact lt_irrefl 0)]
  · intro r _ hz
    rw [if_neg (by rw [hz]; exact lt_irrefl 0)]

/-- A concrete closed counterclockwise triangle-ish ring used as the
witness input. -/
def ringW : Ring := [(0, 0), (1, 0), (1, 1), (0, 0)]

/-- Witness for C1 at the concrete ring `ringW` with no holes. -/
theorem claim_C1_witness :
    wfRing ringW ∧
    ∃ e hs changed,
      fix_polygon_orientation (ringW :: []) = some (e :: hs, changed) ∧
      e = (if calculate_area ringW < 0 then reverse_ring ringW else ringW) ∧
      hs = ([] : List Ring).map
        (fun r => if 0 < calculate_area r then reverse_ring r else r) ∧
      0 ≤ calculate_area e ∧
      (∀ h ∈ hs, calculate_area h ≤ 0) ∧
      changed = ((decide (calculate_area ringW < 0)) ||
        ([] : List Ring).any (fun r => decide (0 < calculate_area r))) ∧
      (calculate_area ringW = 0 → e = ringW) ∧
      (∀ r ∈ ([] : List Ring), calculate_area r = 0 →
        (if 0 < calculate_area r then reverse_ring r else r) = r) :=
  ⟨⟨by norm_num [ringW], rfl⟩,
    claim_C1.2 ringW [] ⟨by norm_num [ringW], rfl⟩ (by simp)⟩

/-- C2: `fix_geometry_orientation` is idempotent on well-formed Polygon
and MultiPolygon geometries — the second application returns exactly the
same coordinates and reports no change. -/
theorem claim_C2 :
    ∀ g : Option Geometry, wfGeom g →
      ∃ g1 c, fix_geometry_orientation g = some (g1, c) ∧
        fix_geometry_orientation g1 = some (g1, false) := by
  intro g hg
  match g with
  | none => exact ⟨none, false, rfl, rfl⟩
  | some (.other t) => exact ⟨some (.other t), false, rfl, rfl⟩
  | some (.polygon none) => exact absurd hg (by simp [wfGeom])
  | some (.polygon (some rs)) =>
    match rs, hg with
    | r0 :: rest, _ =>
      cases hfp : fix_polygon_orientation (r0 :: rest) with
      | none => exact absurd hfp (by simp [fix_polygon_orientation])
      | some v =>
        obtain ⟨out, c⟩ := v
        exact ⟨some (.polygon (some out)), c,
          by simp only [fix_geometry_orientation, hfp],
          by simp only [fix_geometry_orientation,
            fix_polygon_orientation_idem hfp]⟩
  | some (.multiPolygon none) => exact absurd hg (by simp [wfGeom])
  | some (.multiPolygon (some ps)) =>
    obtain ⟨ps', c, hps⟩ := fixMulti_total ps (fun p hp => (hg p hp).1)
    exact ⟨some (.multiPolygon (some ps')), c,
      by simp only [fix_geometry_orientation, hps],
      by simp only [fix_geometry_orientation, fixMulti_idem hps]⟩

/-- A concrete clockwise square exterior ring (signed area -1), the
spec's Scenario B input. -/
def ringCW : Ring := [(0, 0), (0, 1), (1, 1), (1, 0), (0, 0)]

/-- Witness for C2 at a concrete Polygon geometry that actually gets
reversed on the first pass. -/
theorem claim_C2_witness :
    wfGeom (some (.polygon (some [ringCW]))) ∧
    ∃ g1 c, fix_geometry_orientation (some (.polygon (some [ringCW]))) = some (g1, c) ∧
      fix_geometry_orientation g1 = some (g1, false) :=
  ⟨by
      refine ⟨by simp, ?_⟩
      intro r hr
      simp only [List.mem_singleton] at hr
      subst hr
      exact ⟨by norm_num [ringCW], rfl⟩,
    claim_C2 (some (.polygon (some [ringCW])))
      (by
        refine ⟨by simp, ?_⟩
        intro r hr
        simp only [List.mem_singleton] at hr
        subst hr
        exact ⟨by norm_num [ringCW], rfl⟩)⟩

/-! ## Dynamic layer: parsed JSON values and Python primitives -/

/-- A parsed JSON value as Python's `json.load` produces it: `null`,
booleans, numbers (floats modelled as rationals), strings, lists, and
insertion-ordered dictionaries with string keys. -/
inductive JVal where
  | null
  | bool (b : Bool)
  | num (q : ℚ)
  | str (s : String)
  | arr (xs : List JVal)
  | obj (kvs : List (String × JVal))
deriving Repr

/-- A raised Python exception, carrying its message. -/
structure PyErr where
  msg : String
deriving Repr, DecidableEq

/-- Python `v == s` for a string literal `s`: true only when `v` is that
string (cross-type `==` is `False`). -/
def jvalIsStr (v : JVal) (s : String) : Bool :=
  match v with
  | .str t => t == s
  | _ => false

/-- Python truthiness of a parsed JSON value. -/
def pyTruthy : JVal → Bool
  | .null => false
  | .bool b => b
  | .num q => q != 0
  | .str s => s != ""
  | .arr xs => !xs.isEmpty
  | .obj kvs => !kvs.isEmpty

/-- Whether the first character list starts the second. -/
def charsStartWith : List Char → List Char → Bool
  | [], _ => true
  | _ :: _, [] => false
  | a :: as, b :: bs => a == b && charsStartWith as bs

/-- Whether `needle` occurs contiguously inside the second list
(Python's substring test). -/
def charsSub (needle : List Char) : List Char → Bool
  | [] => needle.isEmpty
  | c :: t => charsStartWith needle (c :: t) || charsSub needle t

/-- Python `k in v` for a string `k`: key membership for dicts, element
membership for lists, substring test for strings, `TypeError` otherwise. -/
def pyContains (v : JVal) (k : String) : Except PyErr Bool :=
  match v with
  | .obj kvs => .ok (kvs.lookup k).isSome
  | .arr xs => .ok (xs.any (fun x => jvalIsStr x k))
  | .str s => .ok (charsSub k.toList s.toList)
  | _ => .error ⟨"TypeError: argument is not iterable"⟩

/-- Python `v[k]` for a string key `k`. -/
def pySubscript (v : JVal) (k : String) : Except PyErr JVal :=
  match v with
  | .obj kvs =>
    match kvs.lookup k with
    | some x => .ok x
    | none => .error ⟨"KeyError: " ++ k⟩
  | _ => .error ⟨"TypeError: indices must not be str"⟩

/-- Python `v[i]` for an integer index `i ≥ 0`. -/
def pyIndex (v : JVal) (i : Nat) : Except PyErr JVal :=
  match v with
  | .arr xs =>
    match xs.get? i with
    | some x => .ok x
    | none => .error ⟨"IndexError: list index out of range"⟩
  | .str s =>
    match s.toList.get? i with
    | some c => .ok (.str (String.mk [c]))
    | none => .error ⟨"IndexError: string index out of range"⟩
  | _ => .error ⟨"TypeError: object is not subscriptable"⟩

/-- Python `for x in v`: list elements, dict keys, string characters. -/
def pyIter (v : JVal) : Except PyErr (List JVal) :=
  match v with
  | .arr xs => .ok xs
  | .obj kvs => .ok (kvs.map (fun kv => .str kv.1))
  | .str s => .ok (s.toList.map (fun c => .str (String.mk [c])))
  | _ => .error ⟨"TypeError: object is not iterable"⟩

/-- Python `v.reverse()`: in-place list reversal (`AttributeError` on
anything that is not a list). -/
def pyReverse (v : JVal) : Except PyErr JVal :=
  match v with
  | .arr xs => .ok (.arr xs.reverse)
  | _ => .error ⟨"AttributeError: no attribute reverse"⟩

/-- Python `v[1:]` followed by iteration, as used in
`for ring in coordinates[1:]`. -/
def pySlice1 (v : JVal) : Except PyErr (List JVal) :=
  match v with
  | .arr xs => .ok (xs.drop 1)
  | .str s => .ok ((s.toList.drop 1).map (fun c => .str (String.mk [c])))
  | _ => .error ⟨"TypeError: object is not subscriptable"⟩

/-- Functional model of in-place mutation `v[k] = x` on a dict (replaces
the first binding of `k`; leaves any non-dict unchanged, since the only
mutations the source performs on non-dicts are unreachable). -/
def pySetKey (v : JVal) (k : String) (x : JVal) : JVal :=
  match v with
  | .obj kvs => .obj (kvs.map (fun kv => if kv.1 == k then (kv.1, x) else kv))
  | w => w

/-- A JSON value used as a number in arithmetic: numbers themselves and
booleans (which Python treats as 0/1); anything else raises in the
arithmetic expression it appears in. -/
def asNumE (v : JVal) : Except PyErr ℚ :=
  match v with
  | .num q => .ok q
  | .bool b => .ok (if b then 1 else 0)
  | _ => .error ⟨"TypeError: unsupported operand type"⟩

/-! ## Dynamic layer: `fix_polygon_orientation` / `fix_geometry_orientation`
on raw JSON values, as `save_geojson` runs them -/

/-- One term of the area loop on raw values:
`ring[i][0] * ring[i+1][1] - ring[i+1][0] * ring[i][1]`. -/
def crossJ (p q : JVal) : Except PyErr ℚ :=
  match pyIndex p 0 with
  | .error e => .error e
  | .ok x1v =>
    match asNumE x1v with
    | .error e => .error e
    | .ok x1 =>
      match pyIndex q 1 with
      | .error e => .error e
      | .ok y2v =>
        match asNumE y2v with
        | .error e => .error e
        | .ok y2 =>
          match pyIndex q 0 with
          | .error e => .error e
          | .ok x2v =>
            match asNumE x2v with
            | .error e => .error e
            | .ok x2 =>
              match pyIndex p 1 with
              | .error e => .error e
              | .ok y1v =>
                match asNumE y1v with
                | .error e => .error e
                | .ok y1 => .ok (x1 * y2 - x2 * y1)

/-- The raw-value area loop over adjacent point pairs. -/
def shoelaceJ : List JVal → Except PyErr ℚ
  | [] => .ok 0
  | [_] => .ok 0
  | p :: q :: rest =>
    match crossJ p q with
    | .error e => .error e
    | .ok c =>
      match shoelaceJ (q :: rest) with
      | .error e => .error e
      | .ok s => .ok (c + s)

/-- Model of `calculate_area` on a raw ring value.  A dict ring with at most one
key never enters the loop body (`range(len - 1)` is empty); with more
keys the first integer subscript raises `KeyError`. -/
def calcAreaJ (ring : JVal) : Except PyErr ℚ :=
  match ring with
  | .arr pts =>
    (match shoelaceJ pts with
      | .error e => .error e
      | .ok s => .ok (s / 2))
  | .str s =>
    (match shoelaceJ (s.toList.map (fun c => .str (String.mk [c]))) with
      | .error e => .error e
      | .ok a => .ok (a / 2))
  | .obj kvs =>
    if kvs.length ≤ 1 then .ok 0 else .error ⟨"KeyError: 0"⟩
  | _ => .error ⟨"TypeError: object has no len"⟩

/-- The hole loop of `fix_polygon_orientation` on raw values:
`for ring in coordinates[1:]`, reversing rings of positive area. -/
def fixHolesJ : List JVal → Except PyErr (List JVal × Bool)
  | [] => .ok ([], false)
  | r :: rs =>
    match calcAreaJ r with
    | .error e => .error e
    | .ok a =>
      match (if 0 < a then
          (match pyReverse r with
            | .error e => .error e
            | .ok r' => .ok (r', true))
        else .ok (r, false) : Except PyErr (JVal × Bool)) with
      | .error e => .error e
      | .ok (r', c) =>
        match fixHolesJ rs with
        | .error e => .error e
        | .ok (rs', cs) => .ok (r' :: rs', c || cs)

/-- Model of `fix_polygon_orientation` on a raw `coordinates` value: unguarded
access to ring 0, exterior reversed when its area is negative, holes
reversed when positive. -/
def fixPolyJ (coordinates : JVal) : Except PyErr (JVal × Bool) :=
  match pyIndex coordinates 0 with
  | .error e => .error e
  | .ok r0 =>
    match calcAreaJ r0 with
    | .error e => .error e
    | .ok a =>
      match (if a < 0 then
          (match pyReverse r0 with
            | .error e => .error e
            | .ok r' => .ok (r', true))
        else .ok (r0, false) : Except PyErr (JVal × Bool)) with
      | .error e => .error e
      | .ok (r0', c0) =>
        match pySlice1 coordinates with
        | .error e => .error e
        | .ok rest =>
          match fixHolesJ rest with
          | .error e => .error e
          | .ok (rest', c1) =>
            .ok ((match coordinates with
              | .arr _ => .arr (r0' :: rest')
              | v => v), c0 || c1)

/-- The `MultiPolygon` loop on raw values. -/
def fixMultiJ : List JVal → Except PyErr (List JVal × Bool)
  | [] => .ok ([], false)
  | p :: ps =>
    match fixPolyJ p with
    | .error e => .error e
    | .ok (p', c) =>
      match fixMultiJ ps with
      | .error e => .error e
      | .ok (ps', cs) => .ok (p' :: ps', c || cs)

/-- Model of `fix_geometry_orientation` on a raw geometry value. -/
def fix_geometry_orientation_j (geometry : JVal) : Except PyErr (JVal × Bool) :=
  if !pyTruthy geometry then .ok (geometry, false)
  else
    match pyContains geometry "type" with
    | .error e => .error e
    | .ok false => .ok (geometry, false)
    | .ok true =>
      match pySubscript geometry "type" with
      | .error e => .error e
      | .ok t =>
        if jvalIsStr t "Polygon" then
          match pySubscript geometry "coordinates" with
          | .error e => .error e
          | .ok coords =>
            match fixPolyJ coords with
            | .error e => .error e
            | .ok (c', ch) => .ok (pySetKey geometry "coordinates" c', ch)
        else if jvalIsStr t "MultiPolygon" then
          match pySubscript geometry "coordinates" with
          | .error e => .error e
          | .ok coords =>
            match pyIter coords with
            | .error e => .error e
            | .ok polys =>
              match fixMultiJ polys with
              | .error e => .error e
              | .ok (polys', ch) =>
                .ok ((match coords with
                  | .arr _ => pySetKey geometry "coordinates" (.arr polys')
                  | _ => geometry), ch)
        else .ok (geometry, false)

/-! ## Relating the raw fixer to the typed fixer -/

/-- Encode a typed point as its JSON form `[x, y]`. -/
def jPoint (p : Point) : JVal := .arr [.num p.1, .num p.2]

/-- Encode a typed ring as its JSON form. -/
def ringToJ (r : Ring) : JVal := .arr (r.map jPoint)

/-- A raw Polygon geometry object. -/
def polygonJ (coords : JVal) : JVal :=
  .obj [("type", .str "Polygon"), ("coordinates", coords)]

/-- A raw MultiPolygon geometry object. -/
def multiPolygonJ (coords : JVal) : JVal :=
  .obj [("type", .str "MultiPolygon"), ("coordinates", coords)]

theorem crossJ_jPoint (p q : Point) :
    crossJ (jPoint p) (jPoint q) = .ok (p.1 * q.2 - q.1 * p.2) := rfl

theorem shoelaceJ_toJ : ∀ r : Ring, shoelaceJ (r.map jPoint) = .ok (shoelace r) := by
  intro r
  induction r with
  | nil => rfl
  | cons p t ih =>
    cases t with
    | nil => rfl
    | cons q t' =>
      show shoelaceJ (jPoint p :: jPoint q :: (t'.map jPoint)) = _
      have hq : jPoint q :: (t'.map jPoint) = (q :: t').map jPoint := rfl
      simp only [shoelaceJ, crossJ_jPoint, hq, ih]
      rfl

theorem calcAreaJ_toJ (r : Ring) : calcAreaJ (ringToJ r) = .ok (calculate_area r) := by
  simp only [calcAreaJ, ringToJ, shoelaceJ_toJ, calculate_area]

theorem pyReverse_toJ (r : Ring) :
    pyReverse (ringToJ r) = .ok (ringToJ (reverse_ring r)) := by
  simp only [pyReverse, ringToJ, reverse_ring, List.map_reverse]

theorem fixHolesJ_toJ : ∀ rest : List Ring,
    fixHolesJ (rest.map ringToJ) =
      .ok ((rest.map (fun r => if 0 < calculate_area r then reverse_ring r else r)).map ringToJ,
        rest.any (fun r => decide (0 < calculate_area r))) := by
  intro rest
  induction rest with
  | nil => rfl
  | cons r rs ih =>
    show fixHolesJ (ringToJ r :: rs.map ringToJ) = _
    simp only [fixHolesJ, calcAreaJ_toJ, ih]
    by_cases h : 0 < calculate_area r
    · simp only [if_pos h, pyReverse_toJ, List.map_cons, List.any_cons,
        decide_eq_true h, Bool.true_or]
    · simp only [if_neg h, List.map_cons, List.any_cons,
        decide_eq_false h, Bool.false_or]

theorem fixPolyJ_toJ (r0 : Ring) (rest : List Ring) :
    fixPolyJ (.arr ((r0 :: rest).map ringToJ)) =
      .ok (.arr (((if calculate_area r0 < 0 then reverse_ring r0 else r0) ::
          rest.map (fun r => if 0 < calculate_area r then reverse_ring r else r)).map ringToJ),
        (decide (calculate_area r0 < 0)) ||
          rest.any (fun r => decide (0 < calculate_area r))) := by
  have h0 : pyIndex (.arr ((r0 :: rest).map ringToJ)) 0 = .ok (ringToJ r0) := rfl
  have h1 : pySlice1 (.arr ((r0 :: rest).map ringToJ)) = .ok (rest.map ringToJ) := rfl
  simp only [fixPolyJ, h0, calcAreaJ_toJ, h1, fixHolesJ_toJ]
  by_cases h : calculate_area r0 < 0
  · simp only [if_pos h, pyReverse_toJ, decide_eq_true h, List.map_cons]
  · simp only [if_neg h, decide_eq_false h, List.map_cons]

theorem fixGeomJ_polygon_toJ (r0 : Ring) (rest : List Ring) :
    fix_geometry_orientation_j (polygonJ (.arr ((r0 :: rest).map ringToJ))) =
      .ok (polygonJ (.arr (((if calculate_area r0 < 0 then reverse_ring r0 else r0) ::
          rest.map (fun r => if 0 < calculate_area r then reverse_ring r else r)).map ringToJ)),
        (decide (calculate_area r0 < 0)) ||
          rest.any (fun r => decide (0 < calculate_area r))) := by
  have htr : pyTruthy (polygonJ (.arr ((r0 :: rest).map ringToJ))) = true := rfl
  have hct : pyContains (polygonJ (.arr ((r0 :: rest).map ringToJ))) "type" =
    .ok true := rfl
  have hst : pySubscript (polygonJ (.arr ((r0 :: rest).map ringToJ))) "type" =
    .ok (.str "Polygon") := rfl
  have hsc : pySubscript (polygonJ (.arr ((r0 :: rest).map ringToJ))) "coordinates" =
    .ok (.arr ((r0 :: rest).map ringToJ)) := rfl
  simp only [fix_geometry_orientation_j, htr, hct, hst, hsc, fixPolyJ_toJ]
  rfl

/-- C9: `fix_geometry_orientation` is only total on Polygon geometries
whose `coordinates` key holds a non-empty list of rings — the access to
ring 0 is unguarded, so an empty `coordinates` list, an absent
`coordinates` key, or an empty polygon in a MultiPolygon reach the error
branch instead of the operation being a no-op returning false; with a
non-empty coordinate list it returns normally. -/
theorem claim_C9 :
    (∃ e, fix_geometry_orientation_j (polygonJ (.arr [])) = .error e) ∧
    (∃ e, fix_geometry_orientation_j (.obj [("type", .str "Polygon")]) = .error e) ∧
    (∃ e, fix_geometry_orientation_j (multiPolygonJ (.arr [.arr []])) = .error e) ∧
    (∀ (r0 : Ring) (rest : List Ring), ∃ out c,
      fix_geometry_orientation_j (polygonJ (.arr ((r0 :: rest).map ringToJ))) =
        .ok (out, c)) ∧
    fix_geometry_orientation (some (.polygon (some []))) = none ∧
    fix_geometry_orientation (some (.polygon none)) = none := by
  exact ⟨⟨_, rfl⟩, ⟨_, rfl⟩, ⟨_, rfl⟩,
    fun r0 rest => ⟨_, _, fixGeomJ_polygon_toJ r0 rest⟩, rfl, rfl⟩

/-! ## Dynamic layer: the `GeoJSONParser` pipeline -/

/-- The parser configuration: `limit` (a Python `int | None`),
`require_geometry`, and the `geometry_types` bitmask. -/
structure Config where
  limit : Option Int
  require_geometry : Bool
  geometry_types : Nat
deriving Repr

/-- Python `self.limit and len(self.features) >= self.limit` — note Python
truthiness: `limit = None` and `limit = 0` are both falsy. -/
def limitReached (limit : Option Int) (len : Nat) : Bool :=
  match limit with
  | none => false
  | some n => (n != 0) && decide (n ≤ (len : Int))

/-- Python `not self.limit or len(self.features) < self.limit`. -/
def limitAllows (limit : Option Int) (len : Nat) : Bool :=
  match limit with
  | none => true
  | some n => (n == 0) || decide ((len : Int) < n)

/-- Python `str.upper()` (character-wise; the geometry type names the
code compares against are ASCII). -/
def pyUpper (s : String) : String := .mk (s.data.map Char.toUpper)

/-- Model of `getattr(GeometryTypes, name.upper(), GeometryTypes.NONE)` as a
bitmask: the seven kind flags, plus the `NONE` and `ALL` members of the
`GeometryTypes` Flag class, which `getattr` also finds. -/
def lookupFlag (name : String) : Nat :=
  if pyUpper name = "NONE" then 0
  else if pyUpper name = "POINT" then 1
  else if pyUpper name = "LINESTRING" then 2
  else if pyUpper name = "POLYGON" then 4
  else if pyUpper name = "MULTIPOINT" then 8
  else if pyUpper name = "MULTILINESTRING" then 16
  else if pyUpper name = "MULTIPOLYGON" then 32
  else if pyUpper name = "GEOMETRYCOLLECTION" then 64
  else if pyUpper name = "ALL" then 127
  else 0

/-- Python `'k' in data and data['k'] is not None` on a dict. -/
def hasNonNullKey (kvs : List (String × JVal)) (k : String) : Bool :=
  match kvs.lookup k with
  | some .null => false
  | some _ => true
  | none => false

/-- Model of `GeoJSONParser.is_valid_geojson`: the envelope check (total). -/
def is_valid_geojson (require_geometry : Bool) (v : JVal) : Bool :=
  match v with
  | .obj kvs =>
    (match kvs.lookup "type" with
      | none => false
      | some t =>
        if jvalIsStr t "Feature" then
          (kvs.lookup "properties").isSome &&
            (!require_geometry || hasNonNullKey kvs "geometry")
        else if jvalIsStr t "FeatureCollection" then
          (match kvs.lookup "features" with
            | some (.arr _) => true
            | _ => false)
        else true)
  | _ => false

/-- Model of `GeoJSONParser.is_valid_feature`.  The geometry-type inspection
(`feature['geometry']['type'].upper()`) is reached whenever a non-null
geometry value is present, and raises when that value is not a dict
with a string `'type'` entry. -/
def is_valid_feature (cfg : Config) (f : JVal) : Except PyErr Bool :=
  match f with
  | .obj kvs =>
    (match kvs.lookup "type" with
      | none => .ok false
      | some _ =>
        let has_properties := (kvs.lookup "properties").isSome
        let has_geometry := hasNonNullKey kvs "geometry"
        if !has_properties || (cfg.require_geometry && !has_geometry) then .ok false
        else if !has_geometry && !cfg.require_geometry then .ok true
        else
          match kvs.lookup "geometry" with
          | some (.obj gkvs) =>
            (match gkvs.lookup "type" with
              | some (.str gt) =>
                .ok ((cfg.geometry_types &&& lookupFlag gt) != 0)
              | some _ => .error ⟨"AttributeError: no attribute upper"⟩
              | none => .error ⟨"KeyError: type"⟩)
          | some _ => .error ⟨"TypeError: value is not subscriptable"⟩
          | none => .ok false)
  | _ => .ok false

/-- The list comprehension
`[f for f in geojson_data['features'] if self.is_valid_feature(f)]`:
left-to-right, the first raising element aborts the whole comprehension. -/
def filterValidM (cfg : Config) : List JVal → Except PyErr (List JVal)
  | [] => .ok []
  | f :: rest =>
    match is_valid_feature cfg f with
    | .error e => .error e
    | .ok b =>
      match filterValidM cfg rest with
      | .error e => .error e
      | .ok tail => .ok (if b then f :: tail else tail)

/-- Python `l[:k]` for an integer `k` (negative `k` counts from the
end, clamped at zero). -/
def pySliceTo {α : Type} (l : List α) (k : Int) : List α :=
  if 0 ≤ k then l.take k.toNat else l.take ((l.length : Int) + k).toNat

/-- Model of `GeoJSONParser.extract_features` acting on the accumulated feature
list.  Errors leave the accumulator unchanged (the method mutates
`self.features` only as its final action). -/
def extract_features (cfg : Config) (features : List JVal) (data : JVal) :
    Except PyErr (List JVal) :=
  if limitReached cfg.limit features.length then .ok features
  else
    match pyContains data "property_geojson" with
    | .error e => .error e
    | .ok false => .ok features
    | .ok true =>
      match pySubscript data "property_geojson" with
      | .error e => .error e
      | .ok gj =>
        if !is_valid_geojson cfg.require_geometry gj then .ok features
        else
          match pySubscript gj "type" with
          | .error e => .error e
          | .ok t =>
            if jvalIsStr t "Feature" then
              match is_valid_feature cfg gj with
              | .error e => .error e
              | .ok true =>
                if limitAllows cfg.limit features.length then
                  .ok (features ++ [gj])
                else .ok features
              | .ok false => .ok features
            else if jvalIsStr t "FeatureCollection" then
              match pySubscript gj "features" with
              | .error e => .error e
              | .ok fsv =>
                match pyIter fsv with
                | .error e => .error e
                | .ok fl =>
                  match filterValidM cfg fl with
                  | .error e => .error e
                  | .ok valid =>
                    match cfg.limit with
                    | some n =>
                      if n == 0 then .ok (features ++ valid)
                      else .ok (features ++
                        pySliceTo valid (n - (features.length : Int)))
                    | none => .ok (features ++ valid)
            else .ok features

/-- The `for item in json_data['data']` loop of `parse_file`, with its
limit-reached break; an exception aborts the loop keeping the features
accumulated so far. -/
def parse_loop (cfg : Config) : List JVal → List JVal → List JVal × Option PyErr
  | features, [] => (features, none)
  | features, item :: rest =>
    if limitReached cfg.limit features.length then (features, none)
    else
      match extract_features cfg features item with
      | .ok fs' => parse_loop cfg fs' rest
      | .error e => (features, some e)

/-- Lift a single `extract_features` call to the loop's result type. -/
def liftE : Except PyErr (List JVal) → List JVal × Option PyErr
  | .ok fs => (fs, none)
  | .error e => ([], some e)

/-- The dispatch of `parse_file` on a successfully loaded document:
`if isinstance(json_data, dict) and 'data' in json_data` iterate the
`data` value, else extract from the document itself. -/
def parse_top_level (cfg : Config) (doc : JVal) : List JVal × Option PyErr :=
  match doc with
  | .obj kvs =>
    (match kvs.lookup "data" with
      | some dv =>
        (match pyIter dv with
          | .ok items => parse_loop cfg [] items
          | .error e => ([], some e))
      | none => liftE (extract_features cfg [] (.obj kvs)))
  | v => liftE (extract_features cfg [] v)

/-- Model of `GeoJSONParser.parse_file`: the `loaded` argument is the outcome of
the input boundary (`open` + `json.load`); every exception is caught and
reported as `Error parsing file: ...`. -/
def parse_file (cfg : Config) (loaded : Except PyErr JVal) :
    List JVal × List String :=
  match loaded with
  | .error e => ([], ["Error parsing file: " ++ e.msg])
  | .ok doc =>
    match parse_top_level cfg doc with
    | (fs, none) => (fs, [])
    | (fs, some e) => (fs, ["Error parsing file: " ++ e.msg])

/-- One iteration of the orientation-fixing loop in `save_geojson`:
`if 'geometry' in feature and feature['geometry']:` then fix in place. -/
def fixFeature (f : JVal) : Except PyErr (JVal × Bool) :=
  match pyContains f "geometry" with
  | .error e => .error e
  | .ok false => .ok (f, false)
  | .ok true =>
    match pySubscript f "geometry" with
    | .error e => .error e
    | .ok g =>
      if !pyTruthy g then .ok (f, false)
      else
        match fix_geometry_orientation_j g with
        | .error e => .error e
        | .ok (g', c) => .ok (pySetKey f "geometry" g', c)

/-- The whole fixing loop of `save_geojson`, counting fixed features. -/
def fixAll : List JVal → Except PyErr (List JVal × Nat)
  | [] => .ok ([], 0)
  | f :: fs =>
    match fixFeature f with
    | .error e => .error e
    | .ok (f', c) =>
      match fixAll fs with
      | .error e => .error e
      | .ok (fs', k) => .ok (f' :: fs', (if c then 1 else 0) + k)

/-- Model of `GeoJSONParser.save_geojson`: fix orientations, build the output
FeatureCollection and write it (the first component is the document
written to the output path, `none` when nothing is written); any
exception is caught and reported as `Error saving file: ...`.
The file-system side (directory creation, the actual write) is assumed
to succeed. -/
def save_geojson (features : List JVal) : Option JVal × List String :=
  match fixAll features with
  | .error e => (none, ["Error saving file: " ++ e.msg])
  | .ok (fs', k) =>
    (some (.obj [("type", .str "FeatureCollection"), ("features", .arr fs')]),
      ["Successfully extracted " ++ toString fs'.length ++ " features"] ++
        (if 0 < k then ["Fixed orientation of " ++ toString k ++ " polygons"] else []))

/-- One program run as `main` performs it: parse the input, then save —
`save_geojson` is invoked unconditionally (the CLI path decoration is
out of scope).  Returns the document written to the output file (if
any) and the diagnostics printed. -/
def run_program (cfg : Config) (loaded : Except PyErr JVal) :
    Option JVal × List String :=
  let pr := parse_file cfg loaded
  let sv := save_geojson pr.1
  (sv.1, pr.2 ++ sv.2)

/-- Modelled from the spec (§4.4 `isValidFeature`): the total spec-side
validator — a feature is structurally valid and type-matching iff it is
a mapping with `type` and `properties`, and its geometry (when present
and non-null) is a mapping whose `type` names a kind whose flag
intersects the configured set. -/
def spec_valid_feature (cfg : Config) (f : JVal) : Bool :=
  match f with
  | .obj kvs =>
    (kvs.lookup "type").isSome &&
    (kvs.lookup "properties").isSome &&
    (match kvs.lookup "geometry" with
      | none => !cfg.require_geometry
      | some .null => !cfg.require_geometry
      | some (.obj gkvs) =>
        (match gkvs.lookup "type" with
          | some (.str gt) => (cfg.geometry_types &&& lookupFlag gt) != 0
          | _ => false)
      | some _ => false)
  | _ => false

/-- Modelled from the spec (§4.5): the features one node contributes —
the `property_geojson` probe, the envelope check, then the valid single
Feature or the valid members of a FeatureCollection, in order. -/
def validOf (cfg : Config) (item : JVal) : List JVal :=
  match item with
  | .obj kvs =>
    (match kvs.lookup "property_geojson" with
      | none => []
      | some gj =>
        if !is_valid_geojson cfg.require_geometry gj then []
        else
          match gj with
          | .obj gkvs =>
            (match gkvs.lookup "type" with
              | some t =>
                if jvalIsStr t "Feature" then
                  (if spec_valid_feature cfg gj then [gj] else [])
                else if jvalIsStr t "FeatureCollection" then
                  (match gkvs.lookup "features" with
                    | some (.arr fs) => fs.filter (spec_valid_feature cfg)
                    | _ => [])
                else []
              | none => [])
          | _ => [])
  | _ => []

/-- Modelled from the spec (§4.5 `parseTopLevel` + §8): all structurally
valid, type-matching features of a document, in input order. -/
def allValid (cfg : Config) (doc : JVal) : List JVal :=
  match doc with
  | .obj kvs =>
    (match kvs.lookup "data" with
      | some (.arr items) => items.flatMap (validOf cfg)
      | some _ => []
      | none => validOf cfg (.obj kvs))
  | v => validOf cfg v

/-! ## Validator agreement and safety -/

/-- Geometry-shape safety: whenever the feature carries a non-null
`geometry` value, that value is a dict with a string `type` entry — the
condition under which `is_valid_feature` cannot raise. -/
def geomShapeSafe (f : JVal) : Prop :=
  ∀ kvs g, f = .obj kvs → kvs.lookup "geometry" = some g → g ≠ .null →
    ∃ gkvs gt, g = .obj gkvs ∧ gkvs.lookup "type" = some (.str gt)


theorem hasNonNullKey_false {kvs : List (String × JVal)} {k : String}
    (h : hasNonNullKey kvs k = false) :
    kvs.lookup k = none ∨ kvs.lookup k = some .null := by
  unfold hasNonNullKey at h
  split at h
  · right; assumption
  · cases h
  · left; assumption

theorem hasNonNullKey_true {kvs : List (String × JVal)} {k : String}
    (h : hasNonNullKey kvs k = true) :
    ∃ g, kvs.lookup k = some g ∧ g ≠ .null := by
  unfold hasNonNullKey at h
  split at h
  · cases h
  · next g hnn heq => exact ⟨g, heq, hnn⟩
  · cases h

theorem is_valid_feature_ok {cfg : Config} {f : JVal} {b : Bool}
    (h : is_valid_feature cfg f = .ok b) : spec_valid_feature cfg f = b := by
  cases f with
  | null => cases h; rfl
  | bool x => cases h; rfl
  | num x => cases h; rfl
  | str x => cases h; rfl
  | arr x => cases h; rfl
  | obj kvs =>
    simp only [is_valid_feature] at h
    split at h
    next htype => cases h; simp [spec_valid_feature, htype]
    next t htype =>
      split at h
      next hcond =>
        cases h
        simp only [Bool.or_eq_true, Bool.and_eq_true, Bool.not_eq_true'] at hcond
        rcases hcond with h1 | ⟨h2, h3⟩
        · simp [spec_valid_feature, htype, h1]
        · rcases hasNonNullKey_false h3 with hg | hg <;>
            simp [spec_valid_feature, htype, hg, h2]
      next hcond =>
        have hprops : (kvs.lookup "properties").isSome = true := by
          by_cases hps : (kvs.lookup "properties").isSome = true
          · exact hps
          · have hps' : (kvs.lookup "properties").isSome = false := by
              cases hx : (kvs.lookup "properties").isSome
              · rfl
              · exact absurd hx hps
            exact absurd (by rw [hps']; rfl) hcond
        split at h
        next hcond2 =>
          cases h
          simp only [Bool.and_eq_true, Bool.not_eq_true'] at hcond2
          obtain ⟨h3, h4⟩ := hcond2
          rcases hasNonNullKey_false h3 with hg | hg <;>
            simp [spec_valid_feature, htype, hg, h4, hprops]
        next hcond2 =>
          split at h
          next gkvs hgeo =>
            split at h
            next gt hgt =>
              cases h
              simp [spec_valid_feature, htype, hgeo, hgt, hprops]
            next tv hgt hne => cases h
            next hgt => cases h
          next g hgeo hno => cases h
          next hgeo =>
            exfalso
            have hng : hasNonNullKey kvs "geometry" = false := by
              simp [hasNonNullKey, hgeo]
            have hrq : cfg.require_geometry = true := by
              by_cases hr : cfg.require_geometry = true
              · exact hr
              · have hr' : cfg.require_geometry = false := by
                  cases hx : cfg.require_geometry
                  · rfl
                  · exact absurd hx hr
                exact absurd (by rw [hng, hr']; rfl) hcond2
            exact hcond (by rw [hprops, hrq, hng]; rfl)

theorem is_valid_feature_total {cfg : Config} {f : JVal} (hs : geomShapeSafe f) :
    ∃ b, is_valid_feature cfg f = .ok b := by
  cases f with
  | null => exact ⟨false, rfl⟩
  | bool x => exact ⟨false, rfl⟩
  | num x => exact ⟨false, rfl⟩
  | str x => exact ⟨false, rfl⟩
  | arr x => exact ⟨false, rfl⟩
  | obj kvs =>
    simp only [is_valid_feature]
    split
    next htype => exact ⟨false, rfl⟩
    next t htype =>
      split
      next hcond => exact ⟨false, rfl⟩
      next hcond =>
        split
        next hcond2 => exact ⟨true, rfl⟩
        next hcond2 =>
          split
          next gkvs hgeo =>
            split
            next gt hgt => exact ⟨_, rfl⟩
            next tv hexc hlk =>
              exfalso
              obtain ⟨gkvs', gt', heq, hgt'⟩ :=
                hs kvs (.obj gkvs) rfl hgeo (by simp)
              cases heq
              rw [hgt'] at hlk
              injection hlk with h2
              exact hexc gt' h2.symm
            next hlk =>
              exfalso
              obtain ⟨gkvs', gt', heq, hgt'⟩ :=
                hs kvs (.obj gkvs) rfl hgeo (by simp)
              cases heq
              rw [hgt'] at hlk
              cases hlk
          next g hexc hlk =>
            exfalso
            cases g with
            | null =>
              have hng : hasNonNullKey kvs "geometry" = false := by
                simp [hasNonNullKey, hlk]
              have hrq : cfg.require_geometry = true := by
                cases hx : cfg.require_geometry
                · exact absurd (by rw [hng, hx]; rfl) hcond2
                · rfl
              exact hcond (by
                have hprops : (kvs.lookup "properties").isSome = true := by
                  cases hx : (kvs.lookup "properties").isSome
                  · exact absurd (by rw [hx]; rfl) hcond
                  · rfl
                rw [hprops, hrq, hng]; rfl)
            | obj gkvs => exact hexc gkvs rfl
            | bool x =>
              obtain ⟨gkvs', gt', heq, -⟩ := hs kvs (.bool x) rfl hlk (by simp)
              cases heq
            | num x =>
              obtain ⟨gkvs', gt', heq, -⟩ := hs kvs (.num x) rfl hlk (by simp)
              cases heq
            | str x =>
              obtain ⟨gkvs', gt', heq, -⟩ := hs kvs (.str x) rfl hlk (by simp)
              cases heq
            | arr x =>
              obtain ⟨gkvs', gt', heq, -⟩ := hs kvs (.arr x) rfl hlk (by simp)
              cases heq
          next hgeo => exact ⟨false, rfl⟩

theorem jvalIsStr_true {v : JVal} {s : String} (h : jvalIsStr v s = true) :
    v = .str s := by
  cases v with
  | str t =>
    simp only [jvalIsStr, beq_iff_eq] at h
    rw [h]
  | null => cases h
  | bool x => cases h
  | num x => cases h
  | arr x => cases h
  | obj x => cases h

theorem filterValidM_ok {cfg : Config} :
    ∀ {l v : List JVal}, filterValidM cfg l = .ok v →
      v = l.filter (spec_valid_feature cfg) := by
  intro l
  induction l with
  | nil =>
    intro v h
    cases h
    rfl
  | cons f rest ih =>
    intro v h
    simp only [filterValidM] at h
    split at h
    · cases h
    next b hb =>
      split at h
      · cases h
      next tail htail =>
        cases h
        rw [List.filter_cons, is_valid_feature_ok hb, ih htail]

theorem is_valid_geojson_obj {rq : Bool} {v : JVal}
    (h : is_valid_geojson rq v = true) :
    ∃ kvs t, v = .obj kvs ∧ kvs.lookup "type" = some t := by
  cases v with
  | obj kvs =>
    simp only [is_valid_geojson] at h
    split at h
    · cases h
    next t htype => exact ⟨kvs, t, rfl, htype⟩
  | null => cases h
  | bool x => cases h
  | num x => cases h
  | str x => cases h
  | arr x => cases h

theorem is_valid_geojson_fc {rq : Bool} {kvs : List (String × JVal)}
    (htype : kvs.lookup "type" = some (.str "FeatureCollection"))
    (h : is_valid_geojson rq (.obj kvs) = true) :
    ∃ fs, kvs.lookup "features" = some (.arr fs) := by
  simp only [is_valid_geojson, htype] at h
  have hnf : jvalIsStr (.str "FeatureCollection") "Feature" = false := rfl
  have hfc : jvalIsStr (.str "FeatureCollection") "FeatureCollection" = true := rfl
  rw [hnf, hfc] at h
  simp only [if_false, if_true, Bool.false_eq_true] at h
  split at h
  next fs hf => exact ⟨fs, hf⟩
  next hf => cases h

/-! ## Characterizing `extract_features` against the spec-side `validOf` -/

/-- The number of features `extract_features` may append given the
remaining limit budget. -/
def appendBudget (cfg : Config) (fs v : List JVal) : List JVal :=
  match cfg.limit with
  | none => fs ++ v
  | some n => if n == 0 then fs ++ v else fs ++ pySliceTo v (n - (fs.length : Int))

theorem pySubscript_ok {v : JVal} {k : String} {x : JVal}
    (h : pySubscript v k = .ok x) :
    ∃ kvs, v = .obj kvs ∧ kvs.lookup k = some x := by
  cases v with
  | obj kvs =>
    simp only [pySubscript] at h
    split at h
    next y hy =>
      cases h
      exact ⟨kvs, rfl, hy⟩
    next hy => cases h
  | null => cases h
  | bool b => cases h
  | num q => cases h
  | str s => cases h
  | arr xs => cases h

theorem bool_true_of_not_neg {b : Bool} (h : ¬ (!b) = true) : b = true := by
  cases b
  · exact absurd rfl h
  · rfl

theorem allows_of_not_reached {limit : Option Int} {len : Nat}
    (h : limitReached limit len = false) : limitAllows limit len = true := by
  cases limit with
  | none => rfl
  | some n =>
    simp only [limitReached] at h
    simp only [limitAllows]
    by_cases hn : n = 0
    · simp [hn]
    · have hne : (n != 0) = true := by simpa using hn
      rw [hne, Bool.true_and] at h
      have hlt : (len : Int) < n := not_le.1 (of_decide_eq_false h)
      simp [decide_eq_true hlt]

theorem lt_of_not_reached {n : Int} {len : Nat}
    (h : limitReached (some n) len = false) (hn : ¬ n = 0) : (len : Int) < n := by
  simp only [limitReached] at h
  have hne : (n != 0) = true := by simpa using hn
  rw [hne, Bool.true_and] at h
  exact not_le.1 (of_decide_eq_false h)

theorem appendBudget_nil (cfg : Config) (fs : List JVal) :
    appendBudget cfg fs [] = fs := by
  unfold appendBudget pySliceTo
  cases cfg.limit with
  | none => simp
  | some n => split <;> simp

theorem appendBudget_single {cfg : Config} {fs : List JVal} (x : JVal)
    (hnr : limitReached cfg.limit fs.length = false) :
    appendBudget cfg fs [x] = fs ++ [x] := by
  unfold appendBudget
  cases hl : cfg.limit with
  | none => rfl
  | some n =>
    show (if (n == 0) = true then fs ++ [x]
      else fs ++ pySliceTo [x] (n - (fs.length : Int))) = fs ++ [x]
    by_cases hn : n = 0
    · simp [hn]
    · have hne : (n == 0) = false := by simpa using hn
      rw [hne]
      simp only [Bool.false_eq_true, if_false]
      rw [hl] at hnr
      have hlt := lt_of_not_reached hnr hn
      have h1 : (1 : Nat) ≤ (n - (fs.length : Int)).toNat := by omega
      unfold pySliceTo
      rw [if_pos (by omega)]
      rw [List.take_of_length_le (by simpa using h1)]

theorem extract_reached {cfg : Config} {fs : List JVal} (item : JVal)
    (hr : limitReached cfg.limit fs.length = true) :
    extract_features cfg fs item = .ok fs := by
  simp [extract_features, hr]

theorem parse_loop_reached {cfg : Config} {fs : List JVal} (items : List JVal)
    (hr : limitReached cfg.limit fs.length = true) :
    parse_loop cfg fs items = (fs, none) := by
  cases items with
  | nil => rfl
  | cons i rest => simp [parse_loop, hr]

theorem appendBudget_some {cfg : Config} {n : Int} (hl : cfg.limit = some n)
    (fs v : List JVal) :
    appendBudget cfg fs v =
      if (n == 0) = true then fs ++ v
      else fs ++ pySliceTo v (n - (fs.length : Int)) := by
  unfold appendBudget
  rw [hl]

theorem appendBudget_none {cfg : Config} (hl : cfg.limit = none)
    (fs v : List JVal) : appendBudget cfg fs v = fs ++ v := by
  unfold appendBudget
  rw [hl]

theorem extract_ok_budget {cfg : Config} {fs : List JVal} {item : JVal}
    {fs' : List JVal}
    (hnr : limitReached cfg.limit fs.length = false)
    (h : extract_features cfg fs item = .ok fs') :
    fs' = appendBudget cfg fs (validOf cfg item) := by
  unfold extract_features at h
  rw [hnr] at h
  simp only [Bool.false_eq_true, if_false] at h
  split at h
  -- pyContains error
  · cases h
  -- pyContains ok false: nothing extracted
  next hpc =>
    cases h
    cases item with
    | obj kvs =>
      simp only [pyContains, Except.ok.injEq] at hpc
      have hlk : kvs.lookup "property_geojson" = none := by
        cases hx : kvs.lookup "property_geojson"
        · rfl
        · rw [hx] at hpc; cases hpc
      simp [validOf, hlk, appendBudget_nil]
    | arr xs => simp [validOf, appendBudget_nil]
    | str s => simp [validOf, appendBudget_nil]
    | null => cases hpc
    | bool b => cases hpc
    | num q => cases hpc
  -- pyContains ok true
  next hpc =>
    split at h
    -- pySubscript error
    · cases h
    next gj hsub =>
      obtain ⟨kvs, rfl, hlk⟩ := pySubscript_ok hsub
      split at h
      -- envelope invalid
      next hinv =>
        cases h
        have hvo : validOf cfg (.obj kvs) = [] := by
          simp only [validOf, hlk]
          rw [if_pos hinv]
        rw [hvo, appendBudget_nil]
      next hinv =>
        have henv : is_valid_geojson cfg.require_geometry gj = true :=
          bool_true_of_not_neg hinv
        split at h
        -- type subscript error (impossible, but dies on its own)
        · cases h
        next t hsubt =>
          obtain ⟨gkvs, rfl, htype⟩ := pySubscript_ok hsubt
          split at h
          -- 'Feature'
          next htF =>
            split at h
            · cases h
            next hvf =>
              -- is_valid_feature ok true
              split at h
              next hta =>
                cases h
                have hspec : spec_valid_feature cfg (.obj gkvs) = true :=
                  is_valid_feature_ok hvf
                simp only [validOf, hlk, henv, Bool.not_true, Bool.false_eq_true,
                  if_false, htype, htF, if_true, hspec]
                rw [appendBudget_single _ hnr]
              next hta =>
                exact absurd (allows_of_not_reached hnr) hta
            next hvf =>
              -- is_valid_feature ok false
              cases h
              have hspec : spec_valid_feature cfg (.obj gkvs) = false :=
                is_valid_feature_ok hvf
              simp only [validOf, hlk, henv, Bool.not_true, Bool.false_eq_true,
                if_false, htype, htF, if_true, hspec]
              rw [appendBudget_nil]
          next htF =>
            split at h
            -- 'FeatureCollection'
            next htFC =>
              have htstr := jvalIsStr_true htFC
              subst htstr
              obtain ⟨fsl, hfeat⟩ := is_valid_geojson_fc htype henv
              split at h
              · cases h
              next fsv hsubf =>
                obtain ⟨gkvs2, heq2, hlk2⟩ := pySubscript_ok hsubf
                injection heq2 with heq2
                subst heq2
                rw [hfeat] at hlk2
                injection hlk2 with hlk2
                subst hlk2
                split at h
                · cases h
                next fl hiter =>
                  cases hiter
                  split at h
                  · cases h
                  next valid hfm =>
                    have hvalid := filterValidM_ok hfm
                    subst hvalid
                    have hvo : validOf cfg (.obj kvs) =
                        fsl.filter (spec_valid_feature cfg) := by
                      simp only [validOf, hlk, henv, Bool.not_true,
                        Bool.false_eq_true, if_false, htype, htF, htFC,
                        if_true, hfeat]
                    rw [hvo]
                    split at h
                    next n hlim =>
                      rw [appendBudget_some hlim]
                      split at h
                      next hz =>
                        cases h
                        rw [if_pos hz]
                      next hz =>
                        cases h
                        rw [if_neg hz]
                    next hlim =>
                      cases h
                      rw [appendBudget_none hlim]
            next htFC =>
              -- neither Feature nor FeatureCollection
              cases h
              simp only [validOf, hlk, henv, Bool.not_true, Bool.false_eq_true,
                if_false, htype, htF, htFC]
              rw [appendBudget_nil]

theorem bool_false_of_not {b : Bool} (h : ¬ b = true) : b = false := by
  cases b
  · rfl
  · exact absurd rfl h

theorem parse_loop_take_spec (cfg : Config) :
    ∀ (items : List JVal) (fs : List JVal),
      ∃ k, (parse_loop cfg fs items).1 =
        fs ++ (items.flatMap (validOf cfg)).take k := by
  intro items
  induction items with
  | nil => exact fun fs => ⟨0, by simp [parse_loop]⟩
  | cons item rest ih =>
    intro fs
    by_cases hr : limitReached cfg.limit fs.length = true
    · exact ⟨0, by simp [parse_loop_reached _ hr]⟩
    · have hnr := bool_false_of_not hr
      have hstep : parse_loop cfg fs (item :: rest) =
          (match extract_features cfg fs item with
            | .ok fs1 => parse_loop cfg fs1 rest
            | .error e => (fs, some e)) := by
        simp [parse_loop, hnr]
      cases hex : extract_features cfg fs item with
      | error e =>
        refine ⟨0, ?_⟩
        rw [hstep, hex]
        simp
      | ok fs1 =>
        have hb := extract_ok_budget hnr hex
        cases hl : cfg.limit with
        | none =>
          rw [appendBudget_none hl] at hb
          subst hb
          obtain ⟨k2, hk2⟩ := ih (fs ++ validOf cfg item)
          refine ⟨(validOf cfg item).length + k2, ?_⟩
          rw [hstep, hex]
          show (parse_loop cfg (fs ++ validOf cfg item) rest).1 = _
          rw [hk2, List.flatMap_cons, List.take_append, List.append_assoc]
        | some n =>
          by_cases hz : n = 0
          · rw [appendBudget_some hl, if_pos (by simpa using hz)] at hb
            subst hb
            obtain ⟨k2, hk2⟩ := ih (fs ++ validOf cfg item)
            refine ⟨(validOf cfg item).length + k2, ?_⟩
            rw [hstep, hex]
            show (parse_loop cfg (fs ++ validOf cfg item) rest).1 = _
            rw [hk2, List.flatMap_cons, List.take_append, List.append_assoc]
          · rw [appendBudget_some hl, if_neg (by simpa using hz)] at hb
            have hnr' : limitReached (some n) fs.length = false := hl ▸ hnr
            have hlt := lt_of_not_reached hnr' hz
            have hsl : pySliceTo (validOf cfg item) (n - (fs.length : Int)) =
                (validOf cfg item).take (n - (fs.length : Int)).toNat := by
              unfold pySliceTo
              rw [if_pos (by omega)]
            rw [hsl] at hb
            by_cases hcut : (n - (fs.length : Int)).toNat < (validOf cfg item).length
            · have hlen1 : fs1.length = fs.length + (n - (fs.length : Int)).toNat := by
                rw [hb]
                simp only [List.length_append, List.length_take]
                omega
              have hreach : limitReached cfg.limit fs1.length = true := by
                rw [hl]
                simp only [limitReached]
                have h1 : (n != 0) = true := by simpa using hz
                have h2 : decide (n ≤ (fs1.length : Int)) = true :=
                  decide_eq_true (by rw [hlen1]; push_cast; omega)
                rw [h1, h2]
                rfl
              refine ⟨(n - (fs.length : Int)).toNat, ?_⟩
              rw [hstep, hex]
              show (parse_loop cfg fs1 rest).1 = _
              rw [parse_loop_reached rest hreach]
              show fs1 = fs ++ ((validOf cfg item ++
                rest.flatMap (validOf cfg)).take (n - (fs.length : Int)).toNat)
              rw [List.take_append_of_le_length (le_of_lt hcut), hb]
            · push_neg at hcut
              rw [List.take_of_length_le hcut] at hb
              subst hb
              obtain ⟨k2, hk2⟩ := ih (fs ++ validOf cfg item)
              refine ⟨(validOf cfg item).length + k2, ?_⟩
              rw [hstep, hex]
              show (parse_loop cfg (fs ++ validOf cfg item) rest).1 = _
              rw [hk2, List.flatMap_cons, List.take_append, List.append_assoc]

theorem extract_str (cfg : Config) (fs : List JVal) (s : String) :
    extract_features cfg fs (.str s) = .ok fs ∨
      ∃ e, extract_features cfg fs (.str s) = .error e := by
  by_cases hr : limitReached cfg.limit fs.length = true
  · exact Or.inl (extract_reached _ hr)
  · have hnr := bool_false_of_not hr
    cases hcs : charsSub "property_geojson".toList s.toList
    · left
      have hpc : pyContains (.str s) "property_geojson" = .ok false := by
        simp only [pyContains, hcs]
      unfold extract_features
      rw [hnr]
      simp only [Bool.false_eq_true, if_false, hpc]
    · right
      have hpc : pyContains (.str s) "property_geojson" = .ok true := by
        simp only [pyContains, hcs]
      refine ⟨⟨"TypeError: indices must not be str"⟩, ?_⟩
      unfold extract_features
      rw [hnr]
      simp only [Bool.false_eq_true, if_false, hpc]
      rfl

theorem parse_loop_strs {cfg : Config} :
    ∀ {items : List JVal} {fs : List JVal},
      (∀ i ∈ items, ∃ s, i = .str s) → (parse_loop cfg fs items).1 = fs := by
  intro items
  induction items with
  | nil => intro fs _; rfl
  | cons i rest ih =>
    intro fs hall
    obtain ⟨s, rfl⟩ := hall i (by simp)
    by_cases hr : limitReached cfg.limit fs.length = true
    · rw [parse_loop_reached _ hr]
    · have hnr := bool_false_of_not hr
      have hstep : parse_loop cfg fs (.str s :: rest) =
          (match extract_features cfg fs (.str s) with
            | .ok fs1 => parse_loop cfg fs1 rest
            | .error e => (fs, some e)) := by
        simp [parse_loop, hnr]
      rcases extract_str cfg fs s with hok | ⟨e, herr⟩
      · rw [hstep, hok]
        show (parse_loop cfg fs rest).1 = fs
        exact ih (fun j hj => hall j (by simp [hj]))
      · rw [hstep, herr]

theorem liftE_extract_take_spec (cfg : Config) (v : JVal) :
    ∃ k, (liftE (extract_features cfg [] v)).1 = (validOf cfg v).take k := by
  by_cases hr : limitReached cfg.limit ([] : List JVal).length = true
  · rw [extract_reached v hr]
    exact ⟨0, rfl⟩
  · have hnr := bool_false_of_not hr
    cases hex : extract_features cfg [] v with
    | error e => exact ⟨0, rfl⟩
    | ok fs1 =>
      have hb := extract_ok_budget hnr hex
      cases hl : cfg.limit with
      | none =>
        rw [appendBudget_none hl] at hb
        exact ⟨(validOf cfg v).length, by
          simp [liftE, hb, List.take_of_length_le]⟩
      | some n =>
        by_cases hz : n = 0
        · rw [appendBudget_some hl, if_pos (by simpa using hz)] at hb
          exact ⟨(validOf cfg v).length, by
            simp [liftE, hb, List.take_of_length_le]⟩
        · rw [appendBudget_some hl, if_neg (by simpa using hz)] at hb
          have hlt := lt_of_not_reached (hl ▸ hnr) hz
          refine ⟨(n - ((([] : List JVal)).length : Int)).toNat, ?_⟩
          show fs1 = _
          rw [hb]
          unfold pySliceTo
          rw [if_pos (by simp at hlt ⊢; omega)]
          simp

theorem parse_top_level_take_spec (cfg : Config) (doc : JVal) :
    ∃ k, (parse_top_level cfg doc).1 = (allValid cfg doc).take k := by
  cases doc with
  | obj kvs =>
    cases hd : kvs.lookup "data" with
    | some dv =>
      have hstep : parse_top_level cfg (.obj kvs) =
          (match pyIter dv with
            | .ok items => parse_loop cfg [] items
            | .error e => ([], some e)) := by
        simp [parse_top_level, hd]
      cases dv with
      | arr items =>
        have hav : allValid cfg (.obj kvs) = items.flatMap (validOf cfg) := by
          simp [allValid, hd]
        obtain ⟨k, hk⟩ := parse_loop_take_spec cfg items []
        refine ⟨k, ?_⟩
        rw [hstep]
        show (parse_loop cfg [] items).1 = _
        rw [hk, hav]
        simp
      | obj dkvs =>
        have hav : allValid cfg (.obj kvs) = [] := by simp [allValid, hd]
        refine ⟨0, ?_⟩
        rw [hstep, hav]
        show (parse_loop cfg [] (dkvs.map (fun kv => JVal.str kv.1))).1 = []
        exact parse_loop_strs (fun i hi => by
          obtain ⟨kv, -, rfl⟩ := List.mem_map.1 hi
          exact ⟨kv.1, rfl⟩)
      | str sv =>
        have hav : allValid cfg (.obj kvs) = [] := by simp [allValid, hd]
        refine ⟨0, ?_⟩
        rw [hstep, hav]
        show (parse_loop cfg []
          (sv.toList.map (fun c => JVal.str (String.mk [c])))).1 = []
        exact parse_loop_strs (fun i hi => by
          obtain ⟨c, -, rfl⟩ := List.mem_map.1 hi
          exact ⟨String.mk [c], rfl⟩)
      | null =>
        have hav : allValid cfg (.obj kvs) = [] := by simp [allValid, hd]
        exact ⟨0, by rw [hstep, hav]; rfl⟩
      | bool b =>
        have hav : allValid cfg (.obj kvs) = [] := by simp [allValid, hd]
        exact ⟨0, by rw [hstep, hav]; rfl⟩
      | num q =>
        have hav : allValid cfg (.obj kvs) = [] := by simp [allValid, hd]
        exact ⟨0, by rw [hstep, hav]; rfl⟩
    | none =>
      have hstep : parse_top_level cfg (.obj kvs) =
          liftE (extract_features cfg [] (.obj kvs)) := by
        simp [parse_top_level, hd]
      have hav : allValid cfg (.obj kvs) = validOf cfg (.obj kvs) := by
        simp [allValid, hd]
      rw [hstep, hav]
      exact liftE_extract_take_spec cfg (.obj kvs)
  | null => exact liftE_extract_take_spec cfg .null
  | bool b => exact liftE_extract_take_spec cfg (.bool b)
  | num q => exact liftE_extract_take_spec cfg (.num q)
  | str sv => exact liftE_extract_take_spec cfg (.str sv)
  | arr xs => exact liftE_extract_take_spec cfg (.arr xs)

theorem extract_ok_len {cfg : Config} {fs : List JVal} {item : JVal}
    {fs' : List JVal} {n : Int} (hl : cfg.limit = some n) (hpos : 1 ≤ n)
    (hlen : (fs.length : Int) ≤ n)
    (h : extract_features cfg fs item = .ok fs') : (fs'.length : Int) ≤ n := by
  by_cases hr : limitReached cfg.limit fs.length = true
  · rw [extract_reached item hr] at h
    injection h with h
    rw [← h]
    exact hlen
  · have hnr := bool_false_of_not hr
    have hb := extract_ok_budget hnr h
    have hz : ¬ n = 0 := by omega
    rw [appendBudget_some hl, if_neg (by simpa using hz)] at hb
    have hlt := lt_of_not_reached (hl ▸ hnr) hz
    rw [show pySliceTo (validOf cfg item) (n - (fs.length : Int)) =
        (validOf cfg item).take (n - (fs.length : Int)).toNat by
      unfold pySliceTo; rw [if_pos (by omega)]] at hb
    subst hb
    simp only [List.length_append, List.length_take]
    push_cast
    omega

theorem parse_loop_len {cfg : Config} {n : Int} (hl : cfg.limit = some n)
    (hpos : 1 ≤ n) :
    ∀ (items : List JVal) {fs : List JVal}, (fs.length : Int) ≤ n →
      (((parse_loop cfg fs items).1.length : Int)) ≤ n := by
  intro items
  induction items with
  | nil => intro fs hlen; exact hlen
  | cons item rest ih =>
    intro fs hlen
    by_cases hr : limitReached cfg.limit fs.length = true
    · rw [parse_loop_reached _ hr]; exact hlen
    · have hnr := bool_false_of_not hr
      have hstep : parse_loop cfg fs (item :: rest) =
          (match extract_features cfg fs item with
            | .ok fs1 => parse_loop cfg fs1 rest
            | .error e => (fs, some e)) := by
        simp [parse_loop, hnr]
      cases hex : extract_features cfg fs item with
      | error e => rw [hstep, hex]; exact hlen
      | ok fs1 =>
        rw [hstep, hex]
        show (((parse_loop cfg fs1 rest).1.length : Int)) ≤ n
        exact ih (extract_ok_len hl hpos hlen hex)

theorem parse_top_level_len {cfg : Config} {n : Int} (hl : cfg.limit = some n)
    (hpos : 1 ≤ n) (doc : JVal) :
    (((parse_top_level cfg doc).1.length : Int)) ≤ n := by
  have hstart : ((([] : List JVal).length : Int)) ≤ n := by simp; omega
  have hlift : ∀ v : JVal,
      (((liftE (extract_features cfg [] v)).1.length : Int)) ≤ n := by
    intro v
    cases hex : extract_features cfg [] v with
    | error e => simpa [liftE] using hstart
    | ok fs1 =>
      show ((fs1.length : Int)) ≤ n
      exact extract_ok_len hl hpos hstart hex
  cases doc with
  | obj kvs =>
    cases hd : kvs.lookup "data" with
    | some dv =>
      have hstep : parse_top_level cfg (.obj kvs) =
          (match pyIter dv with
            | .ok items => parse_loop cfg [] items
            | .error e => ([], some e)) := by
        simp [parse_top_level, hd]
      cases dv with
      | arr items =>
        rw [hstep]
        show (((parse_loop cfg [] items).1.length : Int)) ≤ n
        exact parse_loop_len hl hpos items hstart
      | obj dkvs =>
        rw [hstep]
        show (((parse_loop cfg []
          (dkvs.map (fun kv => JVal.str kv.1))).1.length : Int)) ≤ n
        rw [parse_loop_strs (fun i hi => by
          obtain ⟨kv, -, rfl⟩ := List.mem_map.1 hi
          exact ⟨kv.1, rfl⟩)]
        simpa using hstart
      | str sv =>
        rw [hstep]
        show (((parse_loop cfg []
          (sv.toList.map (fun c => JVal.str (String.mk [c])))).1.length : Int)) ≤ n
        rw [parse_loop_strs (fun i hi => by
          obtain ⟨c, -, rfl⟩ := List.mem_map.1 hi
          exact ⟨String.mk [c], rfl⟩)]
        simpa using hstart
      | null => rw [hstep]; simpa using hstart
      | bool b => rw [hstep]; simpa using hstart
      | num q => rw [hstep]; simpa using hstart
    | none =>
      have hstep : parse_top_level cfg (.obj kvs) =
          liftE (extract_features cfg [] (.obj kvs)) := by
        simp [parse_top_level, hd]
      rw [hstep]
      exact hlift (.obj kvs)
  | null => exact hlift .null
  | bool b => exact hlift (.bool b)
  | num q => exact hlift (.num q)
  | str sv => exact hlift (.str sv)
  | arr xs => exact hlift (.arr xs)

theorem parse_loop_none_exact {cfg : Config} (hl : cfg.limit = none) :
    ∀ (items : List JVal) (fs : List JVal),
      (parse_loop cfg fs items).2 = none →
      (parse_loop cfg fs items).1 = fs ++ items.flatMap (validOf cfg) := by
  intro items
  induction items with
  | nil => intro fs _; simp [parse_loop]
  | cons item rest ih =>
    intro fs h2
    have hnr : limitReached cfg.limit fs.length = false := by rw [hl]; rfl
    have hstep : parse_loop cfg fs (item :: rest) =
        (match extract_features cfg fs item with
          | .ok fs1 => parse_loop cfg fs1 rest
          | .error e => (fs, some e)) := by
      simp [parse_loop, hnr]
    cases hex : extract_features cfg fs item with
    | error e =>
      rw [hstep, hex] at h2
      cases h2
    | ok fs1 =>
      have hb := extract_ok_budget hnr hex
      rw [appendBudget_none hl] at hb
      subst hb
      rw [hstep, hex] at h2 ⊢
      show (parse_loop cfg (fs ++ validOf cfg item) rest).1 = _
      rw [ih (fs ++ validOf cfg item) h2, List.flatMap_cons, List.append_assoc]

theorem parse_top_level_none_exact {cfg : Config} (hl : cfg.limit = none)
    (doc : JVal) (h2 : (parse_top_level cfg doc).2 = none) :
    (parse_top_level cfg doc).1 = allValid cfg doc := by
  have hlift : ∀ v : JVal, (liftE (extract_features cfg [] v)).2 = none →
      (liftE (extract_features cfg [] v)).1 = validOf cfg v := by
    intro v hv
    have hnr : limitReached cfg.limit ([] : List JVal).length = false := by
      rw [hl]; rfl
    cases hex : extract_features cfg [] v with
    | error e => rw [hex] at hv; cases hv
    | ok fs1 =>
      have hb := extract_ok_budget hnr hex
      rw [appendBudget_none hl] at hb
      show fs1 = validOf cfg v
      simpa using hb
  cases doc with
  | obj kvs =>
    cases hd : kvs.lookup "data" with
    | some dv =>
      have hstep : parse_top_level cfg (.obj kvs) =
          (match pyIter dv with
            | .ok items => parse_loop cfg [] items
            | .error e => ([], some e)) := by
        simp [parse_top_level, hd]
      cases dv with
      | arr items =>
        have hav : allValid cfg (.obj kvs) = items.flatMap (validOf cfg) := by
          simp [allValid, hd]
        rw [hstep] at h2 ⊢
        rw [hav]
        have h2' : (parse_loop cfg [] items).2 = none := h2
        simpa using parse_loop_none_exact hl items [] h2'
      | obj dkvs =>
        have hav : allValid cfg (.obj kvs) = [] := by simp [allValid, hd]
        rw [hstep, hav]
        exact parse_loop_strs (fun i hi => by
          obtain ⟨kv, -, rfl⟩ := List.mem_map.1 hi
          exact ⟨kv.1, rfl⟩)
      | str sv =>
        have hav : allValid cfg (.obj kvs) = [] := by simp [allValid, hd]
        rw [hstep, hav]
        exact parse_loop_strs (fun i hi => by
          obtain ⟨c, -, rfl⟩ := List.mem_map.1 hi
          exact ⟨String.mk [c], rfl⟩)
      | null =>
        rw [hstep] at h2
        cases h2
      | bool b =>
        rw [hstep] at h2
        cases h2
      | num q =>
        rw [hstep] at h2
        cases h2
    | none =>
      have hstep : parse_top_level cfg (.obj kvs) =
          liftE (extract_features cfg [] (.obj kvs)) := by
        simp [parse_top_level, hd]
      have hav : allValid cfg (.obj kvs) = validOf cfg (.obj kvs) := by
        simp [allValid, hd]
      rw [hstep] at h2 ⊢
      rw [hav]
      exact hlift (.obj kvs) h2
  | null => exact hlift .null h2
  | bool b => exact hlift (.bool b) h2
  | num q => exact hlift (.num q) h2
  | str sv => exact hlift (.str sv) h2
  | arr xs => exact hlift (.arr xs) h2

/-! ## Concrete fixtures used by witnesses and counterexamples -/

/-- Binding list of a valid Point feature. -/
def featPointKvs : List (String × JVal) :=
  [("type", .str "Feature"), ("properties", .obj []),
    ("geometry", .obj [("type", .str "Point"),
      ("coordinates", .arr [.num 1, .num 2])])]

/-- A valid Point feature. -/
def featPointW : JVal := .obj featPointKvs

/-- A valid LineString feature. -/
def featLineW : JVal :=
  .obj [("type", .str "Feature"), ("properties", .obj []),
    ("geometry", .obj [("type", .str "LineString"), ("coordinates", .arr [])])]

/-- A feature whose geometry is a mapping without a `type` key. -/
def featBadW : JVal :=
  .obj [("type", .str "Feature"), ("properties", .obj []), ("geometry", .obj [])]

/-- A feature whose geometry type name is `All` — not a geometry kind,
but the name of the `GeometryTypes.ALL` member. -/
def featAllW : JVal :=
  .obj [("type", .str "Feature"), ("properties", .obj []),
    ("geometry", .obj [("type", .str "All")])]

/-- Binding list of a feature with an explicit `geometry: null`. -/
def featNullGKvs : List (String × JVal) :=
  [("type", .str "Feature"), ("properties", .obj []), ("geometry", .null)]

/-- A feature with `geometry: null`. -/
def featNullGW : JVal := .obj featNullGKvs

/-- The default configuration: no limit, geometry required, all kinds. -/
def cfgAllW : Config := ⟨none, true, 127⟩

/-- A FeatureCollection with two valid features. -/
def fcTwoW : JVal :=
  .obj [("type", .str "FeatureCollection"),
    ("features", .arr [featPointW, featLineW])]

/-- A `data` record holding that FeatureCollection. -/
def itemFCW : JVal := .obj [("property_geojson", fcTwoW)]

/-- Binding list of a document with one `data` record. -/
def docTwoFeatsKvs : List (String × JVal) := [("data", .arr [itemFCW])]

/-- Document `{"data": [record]}` with two valid features inside one fragment. -/
def docTwoFeats : JVal := .obj docTwoFeatsKvs

/-- A document whose `property_geojson` is a single Point feature. -/
def docOnePoint : JVal := .obj [("property_geojson", featPointW)]

/-- A mapping whose `data` value is a number, not a sequence. -/
def docDataNum : JVal := .obj [("data", .num 5)]

/-- A document whose first record raises inside validation and whose
second record holds a valid feature. -/
def docBadThenGood : JVal :=
  .obj [("data", .arr [
    .obj [("property_geojson",
      .obj [("type", .str "FeatureCollection"), ("features", .arr [featBadW])])],
    .obj [("property_geojson", featPointW)]])]

/-- One FeatureCollection fragment holding a raising feature followed by
a valid one. -/
def docBadGoodFC : JVal :=
  .obj [("data", .arr [
    .obj [("property_geojson",
      .obj [("type", .str "FeatureCollection"),
        ("features", .arr [featBadW, featPointW])])]])]

/-- A document carrying a feature with `geometry: null`. -/
def docNullG : JVal := .obj [("property_geojson", featNullGW)]

/-! ## Geometry-type lookup facts -/

/-- The nine uppercase names `getattr` can find on the `GeometryTypes`
class: the seven kinds plus `ALL` and `NONE`. -/
def knownFlagNames : List String :=
  ["POINT", "LINESTRING", "POLYGON", "MULTIPOINT", "MULTILINESTRING",
    "MULTIPOLYGON", "GEOMETRYCOLLECTION", "ALL", "NONE"]

theorem lookupFlag_unknown {s : String} (h : pyUpper s ∉ knownFlagNames) :
    lookupFlag s = 0 := by
  unfold lookupFlag
  split_ifs with h1 h2 h3 h4 h5 h6 h7 h8 h9
  · rfl
  · exact absurd (by rw [h2]; decide) h
  · exact absurd (by rw [h3]; decide) h
  · exact absurd (by rw [h4]; decide) h
  · exact absurd (by rw [h5]; decide) h
  · exact absurd (by rw [h6]; decide) h
  · exact absurd (by rw [h7]; decide) h
  · exact absurd (by rw [h8]; decide) h
  · exact absurd (by rw [h9]; decide) h
  · rfl

theorem lookupFlag_all {s : String} (h : pyUpper s = "ALL") :
    lookupFlag s = 127 := by
  unfold lookupFlag
  rw [h]
  decide

theorem accepted_flag_intersects {cfg : Config} {kvs : List (String × JVal)}
    (h : is_valid_feature cfg (.obj kvs) = .ok true)
    (hng : hasNonNullKey kvs "geometry" = true) :
    ∃ gkvs gt, kvs.lookup "geometry" = some (.obj gkvs) ∧
      gkvs.lookup "type" = some (.str gt) ∧
      cfg.geometry_types &&& lookupFlag gt ≠ 0 := by
  have hspec := is_valid_feature_ok h
  obtain ⟨g, hlk, hne⟩ := hasNonNullKey_true hng
  cases g with
  | obj gkvs =>
    simp only [spec_valid_feature, Bool.and_eq_true] at hspec
    obtain ⟨-, hgeo⟩ := hspec
    rw [hlk] at hgeo
    have hgeo' : (match gkvs.lookup "type" with
        | some (.str gt) => (cfg.geometry_types &&& lookupFlag gt) != 0
        | _ => false) = true := hgeo
    split at hgeo'
    next gt hgt => exact ⟨gkvs, gt, hlk, hgt, by simpa using hgeo'⟩
    next hother => exact Bool.noConfusion hgeo'
  | null => exact absurd rfl hne
  | bool x =>
    simp only [spec_valid_feature, Bool.and_eq_true] at hspec
    obtain ⟨-, hgeo⟩ := hspec
    rw [hlk] at hgeo
    exact Bool.noConfusion (show false = true from hgeo)
  | num x =>
    simp only [spec_valid_feature, Bool.and_eq_true] at hspec
    obtain ⟨-, hgeo⟩ := hspec
    rw [hlk] at hgeo
    exact Bool.noConfusion (show false = true from hgeo)
  | str x =>
    simp only [spec_valid_feature, Bool.and_eq_true] at hspec
    obtain ⟨-, hgeo⟩ := hspec
    rw [hlk] at hgeo
    exact Bool.noConfusion (show false = true from hgeo)
  | arr x =>
    simp only [spec_valid_feature, Bool.and_eq_true] at hspec
    obtain ⟨-, hgeo⟩ := hspec
    rw [hlk] at hgeo
    exact Bool.noConfusion (show false = true from hgeo)

theorem reject_unknown_type {cfg : Config} {kvs gkvs : List (String × JVal)}
    {gt : String} (ht : (kvs.lookup "type").isSome = true)
    (hp : (kvs.lookup "properties").isSome = true)
    (hgeo : kvs.lookup "geometry" = some (.obj gkvs))
    (hgt : gkvs.lookup "type" = some (.str gt))
    (hu : pyUpper gt ∉ knownFlagNames) :
    is_valid_feature cfg (.obj kvs) = .ok false := by
  obtain ⟨t, ht'⟩ := Option.isSome_iff_exists.1 ht
  have hng : hasNonNullKey kvs "geometry" = true := by
    simp [hasNonNullKey, hgeo]
  simp only [is_valid_feature, ht', hp, hng, hgeo, hgt, Bool.not_true,
    Bool.and_false, Bool.or_false, Bool.false_and, Bool.false_eq_true,
    if_false, lookupFlag_unknown hu]
  simp

theorem is_valid_feature_raises {cfg : Config} {kvs gkvs : List (String × JVal)}
    (ht : (kvs.lookup "type").isSome = true)
    (hp : (kvs.lookup "properties").isSome = true)
    (hgeo : kvs.lookup "geometry" = some (.obj gkvs))
    (hgt : gkvs.lookup "type" = none) :
    is_valid_feature cfg (.obj kvs) = .error ⟨"KeyError: type"⟩ := by
  obtain ⟨t, ht'⟩ := Option.isSome_iff_exists.1 ht
  have hng : hasNonNullKey kvs "geometry" = true := by
    simp [hasNonNullKey, hgeo]
  simp only [is_valid_feature, ht', hp, hng, hgeo, hgt, Bool.not_true,
    Bool.and_false, Bool.or_false, Bool.false_and, Bool.false_eq_true,
    if_false]

theorem null_geometry_accepted {l : Option Int} {gt : Nat}
    {kvs : List (String × JVal)} (ht : (kvs.lookup "type").isSome = true)
    (hp : (kvs.lookup "properties").isSome = true)
    (hgeo : kvs.lookup "geometry" = some .null ∨ kvs.lookup "geometry" = none) :
    is_valid_feature ⟨l, false, gt⟩ (.obj kvs) = .ok true := by
  obtain ⟨t, ht'⟩ := Option.isSome_iff_exists.1 ht
  have hng : hasNonNullKey kvs "geometry" = false := by
    rcases hgeo with hg | hg <;> simp [hasNonNullKey, hg]
  simp only [is_valid_feature, ht', hp, hng, Bool.not_true, Bool.not_false,
    Bool.and_true, Bool.false_and, Bool.or_false, Bool.false_eq_true,
    if_false, Bool.true_and, if_true]

/-! ## Claim theorems -/

/-- C3 (amended): an accepted feature with a non-null geometry always has
a geometry-kind flag intersecting the configured set; a geometry type
name whose uppercase form is none of the seven kind names, `ALL` or
`NONE` maps to the empty flag and is rejected regardless of the
configured set; but the name `all` (case-insensitively) maps to the
union of all seven flags, because `getattr` also finds the
`GeometryTypes.ALL` member. -/
theorem claim_C3 :
    (∀ (cfg : Config) (kvs : List (String × JVal)),
      is_valid_feature cfg (.obj kvs) = .ok true →
      hasNonNullKey kvs "geometry" = true →
      ∃ gkvs gt, kvs.lookup "geometry" = some (.obj gkvs) ∧
        gkvs.lookup "type" = some (.str gt) ∧
        cfg.geometry_types &&& lookupFlag gt ≠ 0) ∧
    (∀ s : String, pyUpper s ∉ knownFlagNames → lookupFlag s = 0) ∧
    (∀ s : String, pyUpper s = "ALL" → lookupFlag s = 127) ∧
    (∀ (cfg : Config) (kvs gkvs : List (String × JVal)) (gt : String),
      (kvs.lookup "type").isSome = true →
      (kvs.lookup "properties").isSome = true →
      kvs.lookup "geometry" = some (.obj gkvs) →
      gkvs.lookup "type" = some (.str gt) →
      pyUpper gt ∉ knownFlagNames →
      is_valid_feature cfg (.obj kvs) = .ok false) :=
  ⟨fun _ _ h hng => accepted_flag_intersects h hng,
    fun _ h => lookupFlag_unknown h,
    fun _ h => lookupFlag_all h,
    fun _ _ _ _ ht hp hgeo hgt hu => reject_unknown_type ht hp hgeo hgt hu⟩

/-- C3 counterexample: the name `All` is not one of the seven canonical
kind names (case-insensitively), yet its flag is the full mask and a
feature with geometry type `All` is accepted under the default set. -/
theorem claim_C3_cex :
    pyUpper "All" ∉ (["POINT", "LINESTRING", "POLYGON", "MULTIPOINT",
      "MULTILINESTRING", "MULTIPOLYGON", "GEOMETRYCOLLECTION"] : List String) ∧
    lookupFlag "All" = 127 ∧
    is_valid_feature cfgAllW featAllW = .ok true :=
  ⟨by decide, by decide, rfl⟩

/-- Witness for C3 at the concrete Point feature. -/
theorem claim_C3_witness :
    ∃ gkvs gt, featPointKvs.lookup "geometry" = some (.obj gkvs) ∧
      gkvs.lookup "type" = some (.str gt) ∧
      cfgAllW.geometry_types &&& lookupFlag gt ≠ 0 :=
  claim_C3.1 cfgAllW featPointKvs rfl rfl

/-- C4 (amended): with a positive limit the output never exceeds the
limit and `extract_features` is a no-op once the count has reached a
non-zero limit; with no limit and no extraction error the output is
exactly the structurally valid, type-matching features.  (A limit of 0
is falsy in Python and behaves as no limit; a negative limit makes every
count "reached".) -/
theorem claim_C4 :
    (∀ (cfg : Config) (doc : JVal) (n : Int), cfg.limit = some n → 1 ≤ n →
      (((parse_top_level cfg doc).1.length : Int)) ≤ n) ∧
    (∀ (cfg : Config) (fs : List JVal) (item : JVal) (n : Int),
      cfg.limit = some n → n ≠ 0 → n ≤ (fs.length : Int) →
      extract_features cfg fs item = .ok fs) ∧
    (∀ (cfg : Config) (doc : JVal), cfg.limit = none →
      (parse_top_level cfg doc).2 = none →
      (parse_top_level cfg doc).1 = allValid cfg doc) := by
  refine ⟨fun cfg doc n hl hpos => parse_top_level_len hl hpos doc,
    fun cfg fs item n hl hn hge => extract_reached item ?_,
    fun cfg doc hl h2 => parse_top_level_none_exact hl doc h2⟩
  rw [hl]
  simp only [limitReached]
  have h1 : (n != 0) = true := by simpa using hn
  rw [h1, decide_eq_true hge]
  rfl

/-- C4 counterexample: with `limit = 0` the accepted count exceeds the
limit (Python treats 0 as falsy, i.e. unbounded); and with no limit a
raising feature aborts extraction, so the output misses a structurally
valid, type-matching feature present in the input. -/
theorem claim_C4_cex :
    (parse_top_level ⟨some 0, true, 127⟩ docOnePoint).1.length = 1 ∧
    ¬ ((1 : Int) ≤ 0) ∧
    (parse_top_level cfgAllW docBadGoodFC).1 = [] ∧
    allValid cfgAllW docBadGoodFC = [featPointW] :=
  ⟨rfl, by decide, rfl, rfl⟩

/-- Witness for C4 at a concrete document with limit 1. -/
theorem claim_C4_witness :
    (((parse_top_level ⟨some 1, true, 127⟩ docTwoFeats).1.length : Int)) ≤ 1 :=
  claim_C4.1 ⟨some 1, true, 127⟩ docTwoFeats 1 rfl (by decide)

/-- C5 (amended): a mapping containing a `data` key is always handled by
iterating that value (raising a caught error when it is not iterable —
it is not treated as "any other document"); direct extraction applies
exactly to documents that are not mappings with a `data` key; and the
`data` loop stops early once the limit is reached. -/
theorem claim_C5 :
    (∀ (cfg : Config) (kvs : List (String × JVal)) (dv : JVal),
      kvs.lookup "data" = some dv →
      parse_top_level cfg (.obj kvs) =
        (match pyIter dv with
          | .ok items => parse_loop cfg [] items
          | .error e => ([], some e))) ∧
    (∀ (cfg : Config) (kvs : List (String × JVal)),
      kvs.lookup "data" = none →
      parse_top_level cfg (.obj kvs) =
        liftE (extract_features cfg [] (.obj kvs))) ∧
    (∀ (cfg : Config) (doc : JVal), (∀ kvs, doc ≠ .obj kvs) →
      parse_top_level cfg doc = liftE (extract_features cfg [] doc)) ∧
    (∀ (cfg : Config) (fs : List JVal) (items : List JVal),
      limitReached cfg.limit fs.length = true →
      parse_loop cfg fs items = (fs, none)) := by
  refine ⟨fun cfg kvs dv hd => by simp [parse_top_level, hd],
    fun cfg kvs hd => by simp [parse_top_level, hd],
    fun cfg doc hno => ?_,
    fun cfg fs items hr => parse_loop_reached items hr⟩
  cases doc with
  | obj kvs => exact absurd rfl (hno kvs)
  | null => rfl
  | bool b => rfl
  | num q => rfl
  | str s => rfl
  | arr xs => rfl

/-- C5 counterexample: on `{"data": 5}` the code raises a caught
iteration error instead of applying extraction to the document itself
(which would succeed with no features). -/
theorem claim_C5_cex :
    (parse_top_level cfgAllW docDataNum).2.isSome = true ∧
    extract_features cfgAllW [] docDataNum = .ok [] ∧
    parse_top_level cfgAllW docDataNum ≠
      liftE (extract_features cfgAllW [] docDataNum) := by
  refine ⟨rfl, rfl, ?_⟩
  intro hcontra
  have h2 : (some (⟨"TypeError: object is not iterable"⟩ : PyErr)
      : Option PyErr) = none := congrArg Prod.snd hcontra
  cases h2

/-- Witness for C5 at a concrete document carrying a `data` array. -/
theorem claim_C5_witness :
    parse_top_level cfgAllW docTwoFeats =
      (match pyIter (.arr [itemFCW]) with
        | .ok items => parse_loop cfgAllW [] items
        | .error e => ([], some e)) :=
  claim_C5.1 cfgAllW docTwoFeatsKvs (.arr [itemFCW]) rfl

/-- C6: accepted features appear in input order — the output is always a
prefix of the spec-side list of valid features in document order — and
with `limit = 1` on one FeatureCollection fragment holding two valid
features the output is exactly the first. -/
theorem claim_C6 :
    (∀ (cfg : Config) (doc : JVal),
      ∃ k, (parse_top_level cfg doc).1 = (allValid cfg doc).take k) ∧
    (parse_top_level ⟨some 1, true, 127⟩ docTwoFeats).1 = [featPointW] :=
  ⟨parse_top_level_take_spec, rfl⟩

/-- C7 (amended): a read/parse failure is caught at the input boundary
and reported with its underlying cause, extraction aborts — but the run
still writes an output file, containing a FeatureCollection of the
features accumulated before the failure (empty for load-time failures),
rather than writing nothing. -/
theorem claim_C7 :
    ∀ (cfg : Config) (e : PyErr),
      parse_file cfg (.error e) = ([], ["Error parsing file: " ++ e.msg]) ∧
      (run_program cfg (.error e)).1 =
        some (.obj [("type", .str "FeatureCollection"),
          ("features", .arr [])]) ∧
      (run_program cfg (.error e)).2 =
        ["Error parsing file: " ++ e.msg,
          "Successfully extracted 0 features"] :=
  fun _ _ => ⟨rfl, rfl, rfl⟩

/-- C7 counterexample: after a concrete JSON parse failure an output
document is still written for the run. -/
theorem claim_C7_cex :
    (run_program cfgAllW
        (.error ⟨"Expecting value: line 1 column 1 (char 0)"⟩)).1 =
      some (.obj [("type", .str "FeatureCollection"),
        ("features", .arr [])]) ∧
    (run_program cfgAllW
        (.error ⟨"Expecting value: line 1 column 1 (char 0)"⟩)).1 ≠ none :=
  ⟨rfl, fun h => Option.noConfusion h⟩

/-- C8 (amended): fragments that fail the guarded structural checks are
silently skipped — validation returns `ok false` without raising
whenever every non-null geometry is a mapping with a string `type`, and
a skipping `extract_features` call leaves the loop to continue with the
remaining input — but a feature whose present non-null geometry is a
mapping without a `type` key raises, which aborts processing of that
input with one file-level error message. -/
theorem claim_C8 :
    (∀ (cfg : Config) (f : JVal), geomShapeSafe f →
      is_valid_feature cfg f = .ok (spec_valid_feature cfg f)) ∧
    (∀ (cfg : Config) (fs : List JVal) (item : JVal) (items : List JVal),
      extract_features cfg fs item = .ok fs →
      parse_loop cfg fs (item :: items) = parse_loop cfg fs items) ∧
    (∀ (cfg : Config) (kvs gkvs : List (String × JVal)),
      (kvs.lookup "type").isSome = true →
      (kvs.lookup "properties").isSome = true →
      kvs.lookup "geometry" = some (.obj gkvs) →
      gkvs.lookup "type" = none →
      ∃ e, is_valid_feature cfg (.obj kvs) = .error e) := by
  refine ⟨?_, ?_, ?_⟩
  · intro cfg f hs
    obtain ⟨b, hb⟩ := is_valid_feature_total hs
    rw [hb, is_valid_feature_ok hb]
  · intro cfg fs item items hex
    by_cases hr : limitReached cfg.limit fs.length = true
    · rw [parse_loop_reached _ hr, parse_loop_reached _ hr]
    · have hnr := bool_false_of_not hr
      cases items with
      | nil => simp [parse_loop, hnr, hex]
      | cons j rest => simp [parse_loop, hnr, hex]
  · intro cfg kvs gkvs ht hp hgeo hgt
    exact ⟨_, is_valid_feature_raises ht hp hgeo hgt⟩

/-- C8 counterexample: a feature whose geometry is a mapping without a
`type` key raises; the parse of a document containing it emits an error
message and drops the valid feature in the following record. -/
theorem claim_C8_cex :
    is_valid_feature cfgAllW featBadW = .error ⟨"KeyError: type"⟩ ∧
    (parse_file cfgAllW (.ok docBadThenGood)).2 =
      ["Error parsing file: KeyError: type"] ∧
    (parse_file cfgAllW (.ok docBadThenGood)).1 = [] :=
  ⟨rfl, rfl, rfl⟩

/-- Witness for C8 at the concrete Point feature (shape-safe geometry). -/
theorem claim_C8_witness :
    is_valid_feature cfgAllW featPointW =
      .ok (spec_valid_feature cfgAllW featPointW) :=
  claim_C8.1 cfgAllW featPointW (fun kvs g heq hlk _ => by
    injection heq with heq
    subst heq
    have h0 : featPointKvs.lookup "geometry" =
        some (.obj [("type", .str "Point"),
          ("coordinates", .arr [.num 1, .num 2])]) := rfl
    rw [h0] at hlk
    injection hlk with hlk
    exact ⟨[("type", .str "Point"), ("coordinates", .arr [.num 1, .num 2])],
      "Point", hlk.symm, rfl⟩)

/-- C10: with `require_geometry = false`, a feature whose `geometry` key
is present with value null is accepted exactly as if the key were absent
— the geometry-type filter is not applied — and such a feature reaches
the output even with an empty configured geometry-type set. -/
theorem claim_C10 :
    (∀ (l : Option Int) (gt : Nat) (kvs : List (String × JVal)),
      (kvs.lookup "type").isSome = true →
      (kvs.lookup "properties").isSome = true →
      kvs.lookup "geometry" = some .null →
      is_valid_feature ⟨l, false, gt⟩ (.obj kvs) = .ok true) ∧
    (∀ (l : Option Int) (gt : Nat) (kvs : List (String × JVal)),
      (kvs.lookup "type").isSome = true →
      (kvs.lookup "properties").isSome = true →
      kvs.lookup "geometry" = none →
      is_valid_feature ⟨l, false, gt⟩ (.obj kvs) = .ok true) ∧
    (parse_top_level ⟨none, false, 0⟩ docNullG).1 = [featNullGW] :=
  ⟨fun _ _ _ ht hp hgeo => null_geometry_accepted ht hp (Or.inl hgeo),
    fun _ _ _ ht hp hgeo => null_geometry_accepted ht hp (Or.inr hgeo),
    rfl⟩

/-- Witness for C10 at the concrete null-geometry feature. -/
theorem claim_C10_witness :
    is_valid_feature ⟨none, false, 0⟩ (.obj featNullGKvs) = .ok true :=
  claim_C10.1 none 0 featNullGKvs rfl rfl rfl
